import Mathlib

/-!
# Subpass dependencies of the Vulkan RHI

A shallow embedding of `Gems/Atom/RHI/Vulkan/Code/Source/RHI/SubpassDependencies.cpp`
and `SubpassDependencies.h`: the synthesis of `VkSubpassDependency` edges from a
render attachment layout (`AddSubpassDependencies`, `BuildSubpassDependencies`),
the copy of a dependency set (`CopySubpassDependencies`) and the table of the
`SubpassDependenciesManager` (`SetSubpassDependencies`, `GetSubpassDependencies`).

Conventions of the embedding:
* `uint32_t` values are natural numbers; the one addition of the source that can
  wrap (`subpassIndex + 1`) is taken modulo `2 ^ 32`;
* a function that can stop at an assertion or at an access outside an array
  returns `Except Fault _`;
* `AZStd::vector` is a `List`, `emplace_back` appends at the end;
* the mutex of the manager is not part of the model: the operations are
  modelled as they run one at a time.
-/

namespace AZ

/-- The ways a modelled call can stop without a result. -/
inductive Fault where
  /-- An `AZ_Assert` whose condition is false, where assertions stop the program. -/
  | assertFailed
  /-- An `operator[]` of a fixed-size array at an index outside the array. -/
  | outOfBounds
deriving DecidableEq, Repr

/-- Modelled from the spec: the `AZ_Assert` macro, whose definition is not among
the sources. Where assertions are enforced a false condition stops the program
(section 7 of the specification: a violated precondition is fatal in the
reference implementation); where the macro is compiled out it does nothing and
the code after it runs. `assertsFatal` selects between the two. -/
def AZ_Assert (assertsFatal : Bool) (expression : Bool) : Except Fault Unit :=
  if assertsFatal && !expression then .error .assertFailed else .ok ()

/-- The `operator[]` of `AZStd::array`, a read at `index`: outside the array there is
no defined value and the read is a fault. -/
def arrayAt {α : Type} (array : List α) (index : Nat) : Except Fault α :=
  match array[index]? with
  | some x => .ok x
  | none => .error .outOfBounds

namespace RHI

/-- Modelled from the spec: `RHI::ScopeId` (`Atom/RHI.Reflect/ScopeId.h` is not
among the sources), a key identifying one logical rendering pass; only its
equality is used. -/
structure ScopeId where
  name : String
deriving DecidableEq, Repr

/-- Modelled from the spec: the depth/stencil descriptor of a subpass
(`Atom/RHI.Reflect/RenderAttachmentLayout.h` is not among the sources); the
specification's `hasDepthStencil` is what `IsValid()` returns. -/
structure RenderAttachmentDescriptor where
  m_valid : Bool
deriving DecidableEq, Repr

/-- The `RenderAttachmentDescriptor::IsValid()` of the source. -/
def RenderAttachmentDescriptor.IsValid (d : RenderAttachmentDescriptor) : Bool :=
  d.m_valid

/-- Modelled from the spec: the per-subpass attachment usage
(`SubpassAttachmentUsage` of the specification, `SubpassRenderAttachmentLayout`
in the source, declared in a header that is not among the sources), with the
three members `AddSubpassDependencies` reads. -/
structure SubpassRenderAttachmentLayout where
  m_rendertargetCount : Nat
  m_subpassInputCount : Nat
  m_depthStencilDescriptor : RenderAttachmentDescriptor
deriving DecidableEq, Repr

/-- Modelled from the spec: `RHI::RenderAttachmentLayout`, the subpass count
(a `uint32_t`) and the fixed-size array of per-subpass layouts. The array is a
list whose length is the capacity `RHI::Limits::Pipeline::SubpassCountMax`, a
constant that is not among the sources. -/
structure RenderAttachmentLayout where
  m_subpassCount : Nat
  m_subpassLayouts : List SubpassRenderAttachmentLayout
deriving DecidableEq, Repr

end RHI

namespace Vulkan

/-! ## Constants of the Vulkan headers -/

def VK_SUBPASS_EXTERNAL : Nat := 4294967295

def VK_PIPELINE_STAGE_FRAGMENT_SHADER_BIT : Nat := 0x00000080
def VK_PIPELINE_STAGE_EARLY_FRAGMENT_TESTS_BIT : Nat := 0x00000100
def VK_PIPELINE_STAGE_LATE_FRAGMENT_TESTS_BIT : Nat := 0x00000200
def VK_PIPELINE_STAGE_COLOR_ATTACHMENT_OUTPUT_BIT : Nat := 0x00000400
def VK_PIPELINE_STAGE_BOTTOM_OF_PIPE_BIT : Nat := 0x00002000

def VK_ACCESS_INPUT_ATTACHMENT_READ_BIT : Nat := 0x00000010
def VK_ACCESS_COLOR_ATTACHMENT_READ_BIT : Nat := 0x00000080
def VK_ACCESS_COLOR_ATTACHMENT_WRITE_BIT : Nat := 0x00000100
def VK_ACCESS_DEPTH_STENCIL_ATTACHMENT_WRITE_BIT : Nat := 0x00000400
def VK_ACCESS_MEMORY_READ_BIT : Nat := 0x00008000

def VK_DEPENDENCY_BY_REGION_BIT : Nat := 0x00000001

/-- The `VkSubpassDependency` of the Vulkan headers. -/
structure VkSubpassDependency where
  srcSubpass : Nat
  dstSubpass : Nat
  srcStageMask : Nat
  dstStageMask : Nat
  srcAccessMask : Nat
  dstAccessMask : Nat
  dependencyFlags : Nat
deriving DecidableEq, Repr

/-- The element `emplace_back()` appends: a value-initialised structure. -/
def VkSubpassDependency.zero : VkSubpassDependency :=
  { srcSubpass := 0, dstSubpass := 0, srcStageMask := 0, dstStageMask := 0,
    srcAccessMask := 0, dstAccessMask := 0, dependencyFlags := 0 }

/-- The class `SubpassDependencies`: the edges and the subpass count. -/
structure SubpassDependencies where
  m_subpassDependencies : List VkSubpassDependency
  m_subpassCount : Nat
deriving DecidableEq, Repr

/-- The `SubpassDependencies::CopySubpassDependencies` of the source: the assertion, then
`resize_no_construct` to the size of the source (the elements it adds have no
value yet; they are modelled as value-initialised and are all overwritten),
then `AZStd::copy` over the destination from its beginning. -/
def SubpassDependencies.CopySubpassDependencies (assertsFatal : Bool)
    (self : SubpassDependencies) (dstSubpassDependencies : List VkSubpassDependency) :
    Except Fault (List VkSubpassDependency) := do
  AZ_Assert assertsFatal (!self.m_subpassDependencies.isEmpty)
  let size := self.m_subpassDependencies.length
  let resized := dstSubpassDependencies.take size
    ++ List.replicate (size - dstSubpassDependencies.length) VkSubpassDependency.zero
  pure (self.m_subpassDependencies ++ resized.drop size)

/-- The static function `AddSubpassDependencies` of the source. The output vector is
passed in and returned; every array read of the source is an `arrayAt`, at the
place where the source reads. -/
def AddSubpassDependencies (subpassDependencies : List VkSubpassDependency)
    (subpassIndex : Nat) (subpassLayouts : List RHI.SubpassRenderAttachmentLayout)
    (subpassCount : Nat) : Except Fault (List VkSubpassDependency) :=
  if subpassCount < 2 then
    .ok subpassDependencies
  else do
    -- Typical External dependencies for subpass 0
    let afterEntry ←
      if subpassIndex = 0 then do
        let layoutA ← arrayAt subpassLayouts subpassIndex
        let afterDepth :=
          if layoutA.m_depthStencilDescriptor.IsValid then
            subpassDependencies ++
              [{ VkSubpassDependency.zero with
                  srcSubpass := VK_SUBPASS_EXTERNAL
                  dstSubpass := 0
                  srcStageMask := VK_PIPELINE_STAGE_EARLY_FRAGMENT_TESTS_BIT
                    ||| VK_PIPELINE_STAGE_LATE_FRAGMENT_TESTS_BIT
                  dstStageMask := VK_PIPELINE_STAGE_EARLY_FRAGMENT_TESTS_BIT
                    ||| VK_PIPELINE_STAGE_LATE_FRAGMENT_TESTS_BIT
                  srcAccessMask := 0
                  dstAccessMask := VK_ACCESS_DEPTH_STENCIL_ATTACHMENT_WRITE_BIT
                  dependencyFlags := 0 }]
          else subpassDependencies
        let layoutB ← arrayAt subpassLayouts subpassIndex
        if layoutB.m_rendertargetCount > 0 then
          pure (afterDepth ++
            [{ VkSubpassDependency.zero with
                srcSubpass := VK_SUBPASS_EXTERNAL
                dstSubpass := 0
                srcStageMask := VK_PIPELINE_STAGE_COLOR_ATTACHMENT_OUTPUT_BIT
                dstStageMask := VK_PIPELINE_STAGE_COLOR_ATTACHMENT_OUTPUT_BIT
                srcAccessMask := 0
                dstAccessMask := VK_ACCESS_COLOR_ATTACHMENT_WRITE_BIT
                dependencyFlags := 0 }])
        else pure afterDepth
      else pure subpassDependencies
    -- the dependency between the current and the next subpass
    let nextSubpassIndex := (subpassIndex + 1) % 2 ^ 32
    if nextSubpassIndex < subpassCount then do
      let current ← arrayAt subpassLayouts subpassIndex
      let next ← arrayAt subpassLayouts nextSubpassIndex
      let d0 : VkSubpassDependency :=
        { VkSubpassDependency.zero with
            srcSubpass := subpassIndex
            dstSubpass := nextSubpassIndex
            dependencyFlags := VK_DEPENDENCY_BY_REGION_BIT }
      let d1 : VkSubpassDependency :=
        if current.m_rendertargetCount > 0 then
          { d0 with
              srcStageMask := VK_PIPELINE_STAGE_COLOR_ATTACHMENT_OUTPUT_BIT
              srcAccessMask := VK_ACCESS_COLOR_ATTACHMENT_WRITE_BIT }
        else
          { d0 with
              srcStageMask := VK_PIPELINE_STAGE_EARLY_FRAGMENT_TESTS_BIT
                ||| VK_PIPELINE_STAGE_LATE_FRAGMENT_TESTS_BIT
              srcAccessMask := VK_ACCESS_DEPTH_STENCIL_ATTACHMENT_WRITE_BIT }
      let d2 : VkSubpassDependency :=
        if next.m_rendertargetCount > 0 then
          if next.m_subpassInputCount > 0 then
            { d1 with
                dstStageMask := VK_PIPELINE_STAGE_FRAGMENT_SHADER_BIT
                dstAccessMask := VK_ACCESS_INPUT_ATTACHMENT_READ_BIT }
          else
            { d1 with
                dstStageMask := VK_PIPELINE_STAGE_FRAGMENT_SHADER_BIT
                dstAccessMask := VK_ACCESS_COLOR_ATTACHMENT_WRITE_BIT }
        else
          { d1 with
              dstStageMask := VK_PIPELINE_STAGE_EARLY_FRAGMENT_TESTS_BIT
                ||| VK_PIPELINE_STAGE_LATE_FRAGMENT_TESTS_BIT
              dstAccessMask := VK_ACCESS_DEPTH_STENCIL_ATTACHMENT_WRITE_BIT }
      pure (afterEntry ++ [d2])
    else
      -- Typical External dependency for last subpass
      pure (afterEntry ++
        [{ VkSubpassDependency.zero with
            srcSubpass := subpassIndex
            dstSubpass := VK_SUBPASS_EXTERNAL
            dependencyFlags := VK_DEPENDENCY_BY_REGION_BIT
            srcStageMask := VK_PIPELINE_STAGE_COLOR_ATTACHMENT_OUTPUT_BIT
            dstStageMask := VK_PIPELINE_STAGE_BOTTOM_OF_PIPE_BIT
            srcAccessMask := VK_ACCESS_COLOR_ATTACHMENT_READ_BIT
              ||| VK_ACCESS_COLOR_ATTACHMENT_WRITE_BIT
            dstAccessMask := VK_ACCESS_MEMORY_READ_BIT }])

/-- The `SubpassDependenciesManager::BuildSubpassDependencies` of the source: the
assertion, then one call of `AddSubpassDependencies` per subpass index from 0 to
`m_subpassCount - 1`, then the count. The result is the object `make_shared`
creates (never a null pointer). The loop counter is a `uint32_t` that stops at
`m_subpassCount`, itself a `uint32_t`, so the counter does not wrap. -/
def SubpassDependenciesManager.BuildSubpassDependencies (assertsFatal : Bool)
    (layout : RHI.RenderAttachmentLayout) : Except Fault SubpassDependencies := do
  AZ_Assert assertsFatal (decide (layout.m_subpassCount > 1))
  let deps ← (List.range layout.m_subpassCount).foldlM
    (fun deps subpassIndex =>
      AddSubpassDependencies deps subpassIndex layout.m_subpassLayouts layout.m_subpassCount)
    []
  pure { m_subpassDependencies := deps, m_subpassCount := layout.m_subpassCount }

/-! ## The table of the manager -/

/-- An object on the heap: where it is and what it holds. Two references are
the same object when they are equal. -/
structure Ref (α : Type) where
  address : Nat
  pointee : α
deriving DecidableEq, Repr

/-- A raw pointer `const T*`: `none` is `nullptr`. -/
abbrev RawPtr (α : Type) := Option (Ref α)

/-- An `AZStd::shared_ptr<T>`: `none` is the null handle. -/
abbrev shared_ptr (α : Type) := Option (Ref α)

/-- The `shared_ptr::get()` of the library: the raw pointer a handle holds. -/
def shared_ptr.get {α : Type} (p : shared_ptr α) : RawPtr α := p

/-- An `AZStd::unordered_map`: a list of entries with distinct keys. -/
abbrev unordered_map (κ ν : Type) := List (κ × ν)

/-- The `unordered_map::find` of the library: the value stored under `key`, if any. -/
def unordered_map.find {κ ν : Type} [DecidableEq κ] :
    unordered_map κ ν → κ → Option ν
  | [], _ => none
  | (k, v) :: rest, key => if k = key then some v else unordered_map.find rest key

/-- The statement `table[key] = value`: the value of an existing entry is replaced, a
missing entry is inserted. -/
def unordered_map.assign {κ ν : Type} [DecidableEq κ] :
    unordered_map κ ν → κ → ν → unordered_map κ ν
  | [], key, value => [(key, value)]
  | (k, v) :: rest, key, value =>
    if k = key then (k, value) :: rest else (k, v) :: unordered_map.assign rest key value

/-- The state of the singleton `SubpassDependenciesManager`. -/
structure SubpassDependenciesManager where
  m_subpassDependenciesTable : unordered_map RHI.ScopeId (shared_ptr SubpassDependencies)
deriving DecidableEq, Repr

/-- The manager `GetInstance()` creates on first use: an empty table. -/
def SubpassDependenciesManager.initial : SubpassDependenciesManager :=
  { m_subpassDependenciesTable := [] }

/-- The `SubpassDependenciesManager::SetSubpassDependencies` of the source: one
assignment per scope id, in the order of the vector. -/
def SubpassDependenciesManager.SetSubpassDependencies (self : SubpassDependenciesManager)
    (scopeIds : List RHI.ScopeId) (subpassDependencies : shared_ptr SubpassDependencies) :
    SubpassDependenciesManager :=
  scopeIds.foldl
    (fun m scopeId =>
      { m with m_subpassDependenciesTable :=
          unordered_map.assign m.m_subpassDependenciesTable scopeId subpassDependencies })
    self

/-- The `SubpassDependenciesManager::GetSubpassDependencies` of the source. -/
def SubpassDependenciesManager.GetSubpassDependencies (self : SubpassDependenciesManager)
    (scopeId : RHI.ScopeId) : RawPtr SubpassDependencies :=
  match unordered_map.find self.m_subpassDependenciesTable scopeId with
  | some handle => shared_ptr.get handle
  | none => none

open RHI

/-! ## The edges as the specification words them, and the inputs of the examples -/

/-- Specification, section 4.1 step 1: the depth/stencil entry edge. -/
def depthStencilEntryEdgeSpec : VkSubpassDependency :=
  { srcSubpass := VK_SUBPASS_EXTERNAL
    dstSubpass := 0
    srcStageMask := VK_PIPELINE_STAGE_EARLY_FRAGMENT_TESTS_BIT
      ||| VK_PIPELINE_STAGE_LATE_FRAGMENT_TESTS_BIT
    dstStageMask := VK_PIPELINE_STAGE_EARLY_FRAGMENT_TESTS_BIT
      ||| VK_PIPELINE_STAGE_LATE_FRAGMENT_TESTS_BIT
    srcAccessMask := 0
    dstAccessMask := VK_ACCESS_DEPTH_STENCIL_ATTACHMENT_WRITE_BIT
    dependencyFlags := 0 }

/-- Specification, section 4.1 step 1: the color entry edge. -/
def colorEntryEdgeSpec : VkSubpassDependency :=
  { srcSubpass := VK_SUBPASS_EXTERNAL
    dstSubpass := 0
    srcStageMask := VK_PIPELINE_STAGE_COLOR_ATTACHMENT_OUTPUT_BIT
    dstStageMask := VK_PIPELINE_STAGE_COLOR_ATTACHMENT_OUTPUT_BIT
    srcAccessMask := 0
    dstAccessMask := VK_ACCESS_COLOR_ATTACHMENT_WRITE_BIT
    dependencyFlags := 0 }

/-- Specification, section 4.1 step 1: the entry edges of subpass 0, the
depth/stencil edge before the color edge. -/
def entryEdgesSpec (usage0 : SubpassRenderAttachmentLayout) : List VkSubpassDependency :=
  (if usage0.m_depthStencilDescriptor.IsValid = true then [depthStencilEntryEdgeSpec] else [])
    ++ (if 0 < usage0.m_rendertargetCount then [colorEntryEdgeSpec] else [])

/-- Specification, section 4.1 step 2: the edge from subpass `i` to subpass
`i + 1`, from the usages of the two. -/
def interSubpassEdgeSpec (i : Nat) (usage next : SubpassRenderAttachmentLayout) :
    VkSubpassDependency :=
  { srcSubpass := i
    dstSubpass := i + 1
    srcStageMask :=
      if 0 < usage.m_rendertargetCount then VK_PIPELINE_STAGE_COLOR_ATTACHMENT_OUTPUT_BIT
      else VK_PIPELINE_STAGE_EARLY_FRAGMENT_TESTS_BIT ||| VK_PIPELINE_STAGE_LATE_FRAGMENT_TESTS_BIT
    srcAccessMask :=
      if 0 < usage.m_rendertargetCount then VK_ACCESS_COLOR_ATTACHMENT_WRITE_BIT
      else VK_ACCESS_DEPTH_STENCIL_ATTACHMENT_WRITE_BIT
    dstStageMask :=
      if 0 < next.m_rendertargetCount then VK_PIPELINE_STAGE_FRAGMENT_SHADER_BIT
      else VK_PIPELINE_STAGE_EARLY_FRAGMENT_TESTS_BIT ||| VK_PIPELINE_STAGE_LATE_FRAGMENT_TESTS_BIT
    dstAccessMask :=
      if 0 < next.m_rendertargetCount then
        (if 0 < next.m_subpassInputCount then VK_ACCESS_INPUT_ATTACHMENT_READ_BIT
         else VK_ACCESS_COLOR_ATTACHMENT_WRITE_BIT)
      else VK_ACCESS_DEPTH_STENCIL_ATTACHMENT_WRITE_BIT
    dependencyFlags := VK_DEPENDENCY_BY_REGION_BIT }

/-- Specification, section 4.1 step 2: the exit edge of the last subpass. -/
def exitEdgeSpec (last : Nat) : VkSubpassDependency :=
  { srcSubpass := last
    dstSubpass := VK_SUBPASS_EXTERNAL
    srcStageMask := VK_PIPELINE_STAGE_COLOR_ATTACHMENT_OUTPUT_BIT
    srcAccessMask := VK_ACCESS_COLOR_ATTACHMENT_READ_BIT ||| VK_ACCESS_COLOR_ATTACHMENT_WRITE_BIT
    dstStageMask := VK_PIPELINE_STAGE_BOTTOM_OF_PIPE_BIT
    dstAccessMask := VK_ACCESS_MEMORY_READ_BIT
    dependencyFlags := VK_DEPENDENCY_BY_REGION_BIT }

/-- A usage for the places of a list that do not exist; used in statements
only at places that do. -/
def noUsage : SubpassRenderAttachmentLayout :=
  { m_rendertargetCount := 0, m_subpassInputCount := 0, m_depthStencilDescriptor := ⟨false⟩ }

/-- The edges one call of `AddSubpassDependencies` appends for subpass `i` of `n`. -/
def edgesAt (layouts : List SubpassRenderAttachmentLayout) (n i : Nat) :
    List VkSubpassDependency :=
  (if i = 0 then entryEdgesSpec (layouts.getD 0 noUsage) else [])
    ++ [if i + 1 < n then
          interSubpassEdgeSpec i (layouts.getD i noUsage) (layouts.getD (i + 1) noUsage)
        else exitEdgeSpec i]

/-- The edges in the output after the calls for the subpasses before `k`. -/
def edgesUpTo (layouts : List SubpassRenderAttachmentLayout) (n : Nat) :
    Nat → List VkSubpassDependency
  | 0 => []
  | k + 1 => edgesUpTo layouts n k ++ edgesAt layouts n k

/-- The inter-subpass edges of the subpasses before `k`, in the order of the subpasses. -/
def interEdges (layouts : List SubpassRenderAttachmentLayout) (k : Nat) :
    List VkSubpassDependency :=
  (List.range k).map
    (fun i => interSubpassEdgeSpec i (layouts.getD i noUsage) (layouts.getD (i + 1) noUsage))

/-- A layout of three subpasses in an array of four: depth only, color, color with input. -/
def layoutThree : RenderAttachmentLayout :=
  { m_subpassCount := 3
    m_subpassLayouts :=
      [ { m_rendertargetCount := 0, m_subpassInputCount := 0, m_depthStencilDescriptor := ⟨true⟩ },
        { m_rendertargetCount := 2, m_subpassInputCount := 0, m_depthStencilDescriptor := ⟨true⟩ },
        { m_rendertargetCount := 1, m_subpassInputCount := 2, m_depthStencilDescriptor := ⟨false⟩ },
        noUsage ] }

/-- A layout of one subpass. -/
def layoutOne : RenderAttachmentLayout :=
  { m_subpassCount := 1
    m_subpassLayouts :=
      [ { m_rendertargetCount := 1, m_subpassInputCount := 0, m_depthStencilDescriptor := ⟨true⟩ },
        noUsage ] }

/-- A layout of two subpasses where subpass 0 has neither a depth/stencil
attachment nor a render target. -/
def layoutBare : RenderAttachmentLayout :=
  { m_subpassCount := 2, m_subpassLayouts := [noUsage, noUsage] }

/-- The registrations of a sequence of `SetSubpassDependencies` calls, each with its
scope ids and its handle, on the manager as first created. -/
def registerAll (calls : List (List ScopeId × shared_ptr SubpassDependencies)) :
    SubpassDependenciesManager :=
  calls.foldl (fun m call => m.SetSubpassDependencies call.1 call.2)
    SubpassDependenciesManager.initial

/-- The handle of the last call of the sequence that lists `scopeId`, if a call does. -/
def lastRegistered (calls : List (List ScopeId × shared_ptr SubpassDependencies))
    (scopeId : ScopeId) : Option (shared_ptr SubpassDependencies) :=
  (calls.reverse.find? (fun call => decide (scopeId ∈ call.1))).map Prod.snd

/-- The first scope id. -/
def scopeA : ScopeId := ⟨"A"⟩

/-- The second scope id. -/
def scopeB : ScopeId := ⟨"B"⟩

/-- The third scope id. -/
def scopeC : ScopeId := ⟨"C"⟩

/-- A set at address 1 with one edge. -/
def setOne : Ref SubpassDependencies :=
  { address := 1, pointee := { m_subpassDependencies := [exitEdgeSpec 1], m_subpassCount := 2 } }

/-- A set at address 2 with two edges. -/
def setTwo : Ref SubpassDependencies :=
  { address := 2
    pointee := { m_subpassDependencies := [colorEntryEdgeSpec, exitEdgeSpec 1], m_subpassCount := 2 } }

/-- A set at address 3 whose edge sequence is empty. -/
def setEmpty : Ref SubpassDependencies :=
  { address := 3, pointee := { m_subpassDependencies := [], m_subpassCount := 0 } }

/-- A layout of two subpasses that each have one render target and nothing else. -/
def layoutTwoColor : RenderAttachmentLayout :=
  { m_subpassCount := 2
    m_subpassLayouts :=
      [ { m_rendertargetCount := 1, m_subpassInputCount := 0, m_depthStencilDescriptor := ⟨false⟩ },
        { m_rendertargetCount := 1, m_subpassInputCount := 0, m_depthStencilDescriptor := ⟨false⟩ } ] }

/-- The layout of three subpasses with another usage in the unused place of the array. -/
def layoutThreeOther : RenderAttachmentLayout :=
  { m_subpassCount := 3
    m_subpassLayouts :=
      [ { m_rendertargetCount := 0, m_subpassInputCount := 0, m_depthStencilDescriptor := ⟨true⟩ },
        { m_rendertargetCount := 2, m_subpassInputCount := 0, m_depthStencilDescriptor := ⟨true⟩ },
        { m_rendertargetCount := 1, m_subpassInputCount := 2, m_depthStencilDescriptor := ⟨false⟩ },
        { m_rendertargetCount := 4, m_subpassInputCount := 1, m_depthStencilDescriptor := ⟨true⟩ } ] }

/-- The layout of three subpasses with other counts of the same sign, another
depth/stencil descriptor for subpass 2, another input attachment count for
subpass 0 and another usage in the unused place of the array. -/
def layoutThreeVariant : RenderAttachmentLayout :=
  { m_subpassCount := 3
    m_subpassLayouts :=
      [ { m_rendertargetCount := 0, m_subpassInputCount := 5, m_depthStencilDescriptor := ⟨true⟩ },
        { m_rendertargetCount := 7, m_subpassInputCount := 0, m_depthStencilDescriptor := ⟨false⟩ },
        { m_rendertargetCount := 3, m_subpassInputCount := 1, m_depthStencilDescriptor := ⟨true⟩ },
        { m_rendertargetCount := 9, m_subpassInputCount := 9, m_depthStencilDescriptor := ⟨true⟩ },
        noUsage ] }

/-- A call of one of the two member functions of the manager that take its lock. -/
inductive ManagerCall where
  /-- A call `SetSubpassDependencies(scopeIds, subpassDependencies)`. -/
  | SetSubpassDependencies (scopeIds : List ScopeId)
      (subpassDependencies : shared_ptr SubpassDependencies)
  /-- A call `GetSubpassDependencies(scopeId)`. -/
  | GetSubpassDependencies (scopeId : ScopeId)

/-- The manager after a call and the pointer the call returns (`none` also for
`SetSubpassDependencies`, which returns nothing). `GetSubpassDependencies` is a
`const` member function whose body reads the table and assigns to no member:
the manager after it is the manager it was called on. -/
def ManagerCall.run (m : SubpassDependenciesManager) :
    ManagerCall → SubpassDependenciesManager × RawPtr SubpassDependencies
  | .SetSubpassDependencies scopeIds subpassDependencies =>
    (m.SetSubpassDependencies scopeIds subpassDependencies, none)
  | .GetSubpassDependencies scopeId => (m, m.GetSubpassDependencies scopeId)

/-- Whether a call is a registration. -/
def ManagerCall.isSet : ManagerCall → Bool
  | .SetSubpassDependencies _ _ => true
  | .GetSubpassDependencies _ => false

/-- The manager after a sequence of calls, one after the other. -/
def runCalls (m : SubpassDependenciesManager) (calls : List ManagerCall) :
    SubpassDependenciesManager :=
  calls.foldl (fun state call => (call.run state).1) m

/-! ## Properties -/

/-- A read inside the array returns the element there. -/
theorem arrayAt_of_lt {α : Type} (l : List α) (i : Nat) (d : α) (h : i < l.length) :
    arrayAt l i = .ok (l.getD i d) := by
  unfold arrayAt
  simp [List.getD, List.getElem?_eq_getElem h]

/-- One call of `AddSubpassDependencies` for a subpass of a layout of at least two
subpasses appends the edges of `edgesAt` and does not fault. -/
theorem AddSubpassDependencies_eq (deps : List VkSubpassDependency) (i n : Nat)
    (layouts : List SubpassRenderAttachmentLayout)
    (h2 : 2 ≤ n) (hi : i < n) (hcap : n ≤ layouts.length) (h32 : n < 2 ^ 32) :
    AddSubpassDependencies deps i layouts n = .ok (deps ++ edgesAt layouts n i) := by
  have hmod : (i + 1) % 2 ^ 32 = i + 1 := Nat.mod_eq_of_lt (by omega)
  have hn : ¬ n < 2 := by omega
  have hai : arrayAt layouts i = .ok (layouts.getD i noUsage) :=
    arrayAt_of_lt layouts i noUsage (by omega)
  unfold AddSubpassDependencies edgesAt
  rw [if_neg hn, hmod]
  by_cases hnext : i + 1 < n
  · have han : arrayAt layouts (i + 1) = .ok (layouts.getD (i + 1) noUsage) :=
      arrayAt_of_lt layouts (i + 1) noUsage (by omega)
    generalize layouts.getD (i + 1) noUsage = next at han ⊢
    by_cases h0 : i = 0
    · subst h0
      generalize layouts.getD 0 noUsage = cur at hai ⊢
      obtain ⟨rtc, sic, ⟨ds⟩⟩ := cur
      obtain ⟨rtcN, sicN, dsN⟩ := next
      cases ds <;> by_cases hr : 0 < rtc <;> by_cases hrn : 0 < rtcN <;>
        by_cases hsn : 0 < sicN <;>
        simp [hai, han, hnext, hr, hrn, hsn, bind, Except.bind, pure, Except.pure,
          entryEdgesSpec, interSubpassEdgeSpec, depthStencilEntryEdgeSpec, colorEntryEdgeSpec,
          RenderAttachmentDescriptor.IsValid, VkSubpassDependency.zero]
    · generalize layouts.getD i noUsage = cur at hai ⊢
      obtain ⟨rtc, sic, ⟨ds⟩⟩ := cur
      obtain ⟨rtcN, sicN, dsN⟩ := next
      by_cases hr : 0 < rtc <;> by_cases hrn : 0 < rtcN <;>
        by_cases hsn : 0 < sicN <;>
        simp [hai, han, hnext, h0, hr, hrn, hsn, bind, Except.bind, pure, Except.pure,
          interSubpassEdgeSpec, VkSubpassDependency.zero]
  · have h0 : i ≠ 0 := by omega
    simp [hnext, h0, bind, Except.bind, pure, Except.pure, exitEdgeSpec,
      VkSubpassDependency.zero]

/-- The loop of `BuildSubpassDependencies` after `k` rounds. -/
theorem foldlM_AddSubpassDependencies (layouts : List SubpassRenderAttachmentLayout) (n : Nat)
    (h2 : 2 ≤ n) (hcap : n ≤ layouts.length) (h32 : n < 2 ^ 32) :
    ∀ k, k ≤ n →
      (List.range k).foldlM
        (fun deps subpassIndex => AddSubpassDependencies deps subpassIndex layouts n) []
        = Except.ok (edgesUpTo layouts n k) := by
  intro k
  induction k with
  | zero => intro _; rfl
  | succ k ih =>
    intro hk
    rw [List.range_succ, List.foldlM_append, ih (by omega)]
    simp only [bind, Except.bind, List.foldlM, pure, Except.pure]
    rw [AddSubpassDependencies_eq _ k n layouts h2 (by omega) hcap h32]
    rfl

/-- Before the last subpass the output is the entry edges and the inter-subpass edges. -/
theorem edgesUpTo_lt (layouts : List SubpassRenderAttachmentLayout) (n : Nat) :
    ∀ k, k + 1 < n →
      edgesUpTo layouts n (k + 1)
        = entryEdgesSpec (layouts.getD 0 noUsage) ++ interEdges layouts (k + 1) := by
  intro k
  induction k with
  | zero =>
    intro hk
    have hk1 : 1 < n := by omega
    simp [edgesUpTo, edgesAt, interEdges, hk1, List.range_succ]
  | succ k ih =>
    intro hk
    rw [edgesUpTo, ih (by omega)]
    simp [edgesAt, interEdges, hk, List.range_succ]

/-- After the last subpass the output ends with the exit edge. -/
theorem edgesUpTo_all (layouts : List SubpassRenderAttachmentLayout) (n : Nat) (h2 : 2 ≤ n) :
    edgesUpTo layouts n n
      = entryEdgesSpec (layouts.getD 0 noUsage) ++ interEdges layouts (n - 1)
          ++ [exitEdgeSpec (n - 1)] := by
  obtain ⟨m, rfl⟩ : ∃ m, n = m + 2 := ⟨n - 2, by omega⟩
  rw [edgesUpTo, edgesUpTo_lt layouts (m + 2) m (by omega)]
  simp [edgesAt]

/-- The whole output of `BuildSubpassDependencies` for a layout of at least two
subpasses that fit the array: the entry edges, the inter-subpass edges in the
order of the subpasses, the exit edge. -/
theorem BuildSubpassDependencies_eq (assertsFatal : Bool) (layout : RenderAttachmentLayout)
    (h2 : 2 ≤ layout.m_subpassCount)
    (hcap : layout.m_subpassCount ≤ layout.m_subpassLayouts.length)
    (h32 : layout.m_subpassCount < 2 ^ 32) :
    SubpassDependenciesManager.BuildSubpassDependencies assertsFatal layout
      = .ok { m_subpassDependencies :=
                entryEdgesSpec (layout.m_subpassLayouts.getD 0 noUsage)
                  ++ interEdges layout.m_subpassLayouts (layout.m_subpassCount - 1)
                  ++ [exitEdgeSpec (layout.m_subpassCount - 1)]
              m_subpassCount := layout.m_subpassCount } := by
  unfold SubpassDependenciesManager.BuildSubpassDependencies
  have hgt : decide (layout.m_subpassCount > 1) = true := by simp; omega
  rw [foldlM_AddSubpassDependencies _ _ h2 hcap h32 _ (le_refl _), edgesUpTo_all _ _ h2, hgt]
  cases assertsFatal <;> rfl

/-- A filter that rejects every image of `f` on the range leaves nothing. -/
theorem filter_map_range_none {α : Type} (f : Nat → α) (p : α → Bool) (m : Nat)
    (hp : ∀ j, j < m → p (f j) = false) : ((List.range m).map f).filter p = [] := by
  rw [List.filter_eq_nil_iff]
  intro a ha
  obtain ⟨j, hj, rfl⟩ := List.mem_map.mp ha
  simp [hp j (List.mem_range.mp hj)]

/-- A filter that accepts the image of `i` alone leaves that image alone. -/
theorem filter_map_range_single {α : Type} (f : Nat → α) (p : α → Bool) (i : Nat) :
    ∀ m, i < m → (∀ j, j < m → (p (f j) = true ↔ j = i)) →
      ((List.range m).map f).filter p = [f i] := by
  intro m
  induction m with
  | zero => intro h; omega
  | succ m ih =>
    intro him hp
    rw [List.range_succ, List.map_append, List.filter_append]
    by_cases hlast : i = m
    · subst hlast
      have hnone : ((List.range i).map f).filter p = [] := by
        apply filter_map_range_none
        intro j hj
        have := hp j (by omega)
        cases hpj : p (f j) with
        | false => rfl
        | true => have := this.mp hpj; omega
      have hpi : p (f i) = true := (hp i (by omega)).mpr rfl
      simp [hnone, hpi]
    · have hpm : p (f m) = false := by
        cases hpj : p (f m) with
        | false => rfl
        | true => have := (hp m (by omega)).mp hpj; omega
      rw [ih (by omega) (fun j hj => hp j (by omega))]
      simp [hpm]

/-- Every entry edge goes from the external sentinel to subpass 0 and is not by region. -/
theorem mem_entryEdgesSpec (u : SubpassRenderAttachmentLayout) (d : VkSubpassDependency)
    (h : d ∈ entryEdgesSpec u) :
    d.srcSubpass = VK_SUBPASS_EXTERNAL ∧ d.dstSubpass = 0 ∧ d.dependencyFlags = 0 := by
  unfold entryEdgesSpec at h
  rcases List.mem_append.mp h with h | h
  · split at h
    · rw [List.mem_singleton.mp h]; exact ⟨rfl, rfl, rfl⟩
    · cases h
  · split at h
    · rw [List.mem_singleton.mp h]; exact ⟨rfl, rfl, rfl⟩
    · cases h

/-- A filter that rejects the edges from the external sentinel to subpass 0 rejects the
entry edges. -/
theorem filter_entryEdgesSpec_nil (u : SubpassRenderAttachmentLayout)
    (p : VkSubpassDependency → Bool)
    (hp : ∀ d, d.srcSubpass = VK_SUBPASS_EXTERNAL → d.dstSubpass = 0 → p d = false) :
    (entryEdgesSpec u).filter p = [] := by
  rw [List.filter_eq_nil_iff]
  intro d hd
  obtain ⟨h1, h2, _⟩ := mem_entryEdgesSpec u d hd
  simp [hp d h1 h2]

/-- Every inter-subpass edge goes from a subpass to its successor and is by region. -/
theorem mem_interEdges (layouts : List SubpassRenderAttachmentLayout) (k : Nat)
    (d : VkSubpassDependency) (h : d ∈ interEdges layouts k) :
    d.srcSubpass < k ∧ d.dstSubpass = d.srcSubpass + 1
      ∧ d.dependencyFlags = VK_DEPENDENCY_BY_REGION_BIT := by
  obtain ⟨j, hj, rfl⟩ := List.mem_map.mp h
  exact ⟨List.mem_range.mp hj, rfl, rfl⟩

/-- The sources of the inter-subpass edges are the subpass indices in order. -/
theorem map_srcSubpass_interEdges (layouts : List SubpassRenderAttachmentLayout) (k : Nat) :
    (interEdges layouts k).map (fun d => d.srcSubpass) = List.range k := by
  unfold interEdges
  rw [List.map_map]
  have hf : ((fun d : VkSubpassDependency => d.srcSubpass) ∘ fun i =>
      interSubpassEdgeSpec i (layouts.getD i noUsage) (layouts.getD (i + 1) noUsage))
      = id := by
    funext i
    rfl
  rw [hf, List.map_id]

/-- A filter that rejects the exit edge leaves nothing of it. -/
theorem filter_exitEdgeSpec_nil (last : Nat) (p : VkSubpassDependency → Bool)
    (hp : p (exitEdgeSpec last) = false) : [exitEdgeSpec last].filter p = [] := by
  simp [hp]

/-- What `find` returns after `table[key] = value`. -/
theorem find_assign {κ ν : Type} [DecidableEq κ] (table : unordered_map κ ν) (key : κ)
    (value : ν) (k : κ) :
    unordered_map.find (unordered_map.assign table key value) k
      = if key = k then some value else unordered_map.find table k := by
  induction table with
  | nil => simp [unordered_map.assign, unordered_map.find]
  | cons entry rest ih =>
    obtain ⟨k0, v0⟩ := entry
    by_cases h0 : k0 = key
    · subst h0
      by_cases hk : k0 = k <;> simp [unordered_map.assign, unordered_map.find, hk]
    · by_cases hk : k0 = k
      · subst hk
        simp [unordered_map.assign, unordered_map.find, h0, Ne.symm h0]
      · simp [unordered_map.assign, unordered_map.find, h0, hk, ih]

/-- The table after `SetSubpassDependencies`: the handle under the listed ids, the old
entries elsewhere. -/
theorem find_SetSubpassDependencies (m : SubpassDependenciesManager) (scopeIds : List ScopeId)
    (handle : shared_ptr SubpassDependencies) (k : ScopeId) :
    unordered_map.find (m.SetSubpassDependencies scopeIds handle).m_subpassDependenciesTable k
      = if k ∈ scopeIds then some handle
        else unordered_map.find m.m_subpassDependenciesTable k := by
  induction scopeIds generalizing m with
  | nil => simp [SubpassDependenciesManager.SetSubpassDependencies]
  | cons a rest ih =>
    have hstep : m.SetSubpassDependencies (a :: rest) handle
        = SubpassDependenciesManager.SetSubpassDependencies
            { m with m_subpassDependenciesTable :=
                unordered_map.assign m.m_subpassDependenciesTable a handle } rest handle := rfl
    rw [hstep, ih, find_assign]
    by_cases hr : k ∈ rest
    · simp [hr]
    · by_cases ha : a = k
      · simp [ha]
      · simp [hr, ha, Ne.symm ha]

/-- What `GetSubpassDependencies` returns after `SetSubpassDependencies`. -/
theorem GetSubpassDependencies_SetSubpassDependencies (m : SubpassDependenciesManager)
    (scopeIds : List ScopeId) (handle : shared_ptr SubpassDependencies) (k : ScopeId) :
    (m.SetSubpassDependencies scopeIds handle).GetSubpassDependencies k
      = if k ∈ scopeIds then handle else m.GetSubpassDependencies k := by
  unfold SubpassDependenciesManager.GetSubpassDependencies
  rw [find_SetSubpassDependencies]
  by_cases hk : k ∈ scopeIds <;> simp [hk, shared_ptr.get]

/-- What `GetSubpassDependencies` returns after a sequence of registrations. -/
theorem GetSubpassDependencies_registerAll
    (calls : List (List ScopeId × shared_ptr SubpassDependencies)) (k : ScopeId) :
    (registerAll calls).GetSubpassDependencies k
      = match lastRegistered calls k with
        | some handle => shared_ptr.get handle
        | none => none := by
  induction calls using List.reverseRecOn with
  | nil => rfl
  | append_singleton cs c ih =>
    have hstep : registerAll (cs ++ [c]) = (registerAll cs).SetSubpassDependencies c.1 c.2 := by
      simp [registerAll, List.foldl_append]
    rw [hstep, GetSubpassDependencies_SetSubpassDependencies, ih]
    by_cases hk : k ∈ c.1
    · simp [lastRegistered, hk, shared_ptr.get]
    · simp [lastRegistered, hk]

/-- The entry edges depend on the usage of subpass 0 only through the validity of its
depth/stencil descriptor and through whether it has a render target. -/
theorem entryEdgesSpec_congr (u v : SubpassRenderAttachmentLayout)
    (hds : u.m_depthStencilDescriptor.IsValid = v.m_depthStencilDescriptor.IsValid)
    (hrt : 0 < u.m_rendertargetCount ↔ 0 < v.m_rendertargetCount) :
    entryEdgesSpec u = entryEdgesSpec v := by
  unfold entryEdgesSpec
  rw [hds]
  by_cases hv : 0 < v.m_rendertargetCount
  · rw [if_pos (hrt.mpr hv), if_pos hv]
  · rw [if_neg (fun h => hv (hrt.mp h)), if_neg hv]

/-- The edge from a subpass to its successor depends on the two usages only through
whether each has a render target and, for a successor that has one, through
whether it has an input attachment. -/
theorem interSubpassEdgeSpec_congr (i : Nat) (u v un vn : SubpassRenderAttachmentLayout)
    (hrt : 0 < u.m_rendertargetCount ↔ 0 < v.m_rendertargetCount)
    (hrtn : 0 < un.m_rendertargetCount ↔ 0 < vn.m_rendertargetCount)
    (hin : 0 < un.m_rendertargetCount →
      (0 < un.m_subpassInputCount ↔ 0 < vn.m_subpassInputCount)) :
    interSubpassEdgeSpec i u un = interSubpassEdgeSpec i v vn := by
  unfold interSubpassEdgeSpec
  by_cases hv : 0 < v.m_rendertargetCount
  · have hu := hrt.mpr hv
    by_cases hvn : 0 < vn.m_rendertargetCount
    · have hun := hrtn.mpr hvn
      by_cases hs : 0 < vn.m_subpassInputCount
      · have hsu := (hin hun).mpr hs
        simp only [hu, hv, hun, hvn, hs, hsu, if_true]
      · have hsu : ¬ 0 < un.m_subpassInputCount := fun h => hs ((hin hun).mp h)
        simp only [hu, hv, hun, hvn, hs, hsu, if_true, if_false]
    · have hun : ¬ 0 < un.m_rendertargetCount := fun h => hvn (hrtn.mp h)
      simp only [hu, hv, hun, hvn, if_true, if_false]
  · have hu : ¬ 0 < u.m_rendertargetCount := fun h => hv (hrt.mp h)
    by_cases hvn : 0 < vn.m_rendertargetCount
    · have hun := hrtn.mpr hvn
      by_cases hs : 0 < vn.m_subpassInputCount
      · have hsu := (hin hun).mpr hs
        simp only [hu, hv, hun, hvn, hs, hsu, if_true, if_false]
      · have hsu : ¬ 0 < un.m_subpassInputCount := fun h => hs ((hin hun).mp h)
        simp only [hu, hv, hun, hvn, hs, hsu, if_true, if_false]
    · have hun : ¬ 0 < un.m_rendertargetCount := fun h => hvn (hrtn.mp h)
      simp only [hu, hv, hun, hvn, if_false]

/-- Two arrays whose usages agree, for the subpasses before `k + 1`, on what
`interSubpassEdgeSpec` looks at have the same inter-subpass edges before `k`. -/
theorem interEdges_congr (l1 l2 : List SubpassRenderAttachmentLayout) (k : Nat)
    (hrt : ∀ i, i < k + 1 →
      (0 < (l1.getD i noUsage).m_rendertargetCount
        ↔ 0 < (l2.getD i noUsage).m_rendertargetCount))
    (hin : ∀ i, 1 ≤ i → i < k + 1 → 0 < (l1.getD i noUsage).m_rendertargetCount →
      (0 < (l1.getD i noUsage).m_subpassInputCount
        ↔ 0 < (l2.getD i noUsage).m_subpassInputCount)) :
    interEdges l1 k = interEdges l2 k := by
  unfold interEdges
  apply List.map_congr_left
  intro i hi
  have hik : i < k := List.mem_range.mp hi
  exact interSubpassEdgeSpec_congr i _ _ _ _ (hrt i (by omega)) (hrt (i + 1) (by omega))
    (hin (i + 1) (by omega) (by omega))

/-- Inside the first `n` places, two arrays with the same first `n` entries hold
the same usage. -/
theorem getD_eq_of_take_eq (l1 l2 : List SubpassRenderAttachmentLayout) (n i : Nat)
    (h : l1.take n = l2.take n) (hi : i < n) : l1.getD i noUsage = l2.getD i noUsage := by
  have h1 : l1[i]? = l2[i]? :=
    calc l1[i]? = (l1.take n)[i]? := (List.getElem?_take_of_lt hi).symm
      _ = (l2.take n)[i]? := by rw [h]
      _ = l2[i]? := List.getElem?_take_of_lt hi
  simp only [List.getD_eq_getElem?_getD, h1]

/-- Two layouts of the same subpass count `n >= 2` whose arrays hold the same first `n`
usages give the same result, with or without enforced assertions. -/
theorem BuildSubpassDependencies_congr_take (assertsFatal1 assertsFatal2 : Bool)
    (layout1 layout2 : RenderAttachmentLayout)
    (h2 : 2 ≤ layout1.m_subpassCount)
    (hcap1 : layout1.m_subpassCount ≤ layout1.m_subpassLayouts.length)
    (hcap2 : layout2.m_subpassCount ≤ layout2.m_subpassLayouts.length)
    (h32 : layout1.m_subpassCount < 2 ^ 32)
    (hcount : layout1.m_subpassCount = layout2.m_subpassCount)
    (husages : layout1.m_subpassLayouts.take layout1.m_subpassCount
      = layout2.m_subpassLayouts.take layout2.m_subpassCount) :
    SubpassDependenciesManager.BuildSubpassDependencies assertsFatal1 layout1
      = SubpassDependenciesManager.BuildSubpassDependencies assertsFatal2 layout2 := by
  rw [BuildSubpassDependencies_eq assertsFatal1 layout1 h2 hcap1 h32,
    BuildSubpassDependencies_eq assertsFatal2 layout2 (by omega) hcap2 (by omega)]
  rw [← hcount] at husages ⊢
  have hget : ∀ i, i < layout1.m_subpassCount →
      layout1.m_subpassLayouts.getD i noUsage = layout2.m_subpassLayouts.getD i noUsage :=
    fun i hi => getD_eq_of_take_eq _ _ _ i husages hi
  rw [hget 0 (by omega),
    interEdges_congr layout1.m_subpassLayouts layout2.m_subpassLayouts
      (layout1.m_subpassCount - 1)
      (fun i hi => by rw [hget i (by omega)])
      (fun i _ hi _ => by rw [hget i (by omega)])]

/-- After `resize_no_construct` the destination has the size of the source, so nothing
of it is left behind the copied edges. -/
theorem CopySubpassDependencies_eq (assertsFatal : Bool) (self : SubpassDependencies)
    (dst : List VkSubpassDependency) (h : self.m_subpassDependencies ≠ []) :
    self.CopySubpassDependencies assertsFatal dst = .ok self.m_subpassDependencies := by
  have hempty : self.m_subpassDependencies.isEmpty = false := by
    cases hl : self.m_subpassDependencies with
    | nil => exact absurd hl h
    | cons a l => rfl
  have hdrop : ((List.take self.m_subpassDependencies.length dst
      ++ List.replicate (self.m_subpassDependencies.length - dst.length)
          VkSubpassDependency.zero).drop self.m_subpassDependencies.length) = [] := by
    apply List.drop_eq_nil_of_le
    simp only [List.length_append, List.length_take, List.length_replicate]
    omega
  unfold SubpassDependencies.CopySubpassDependencies
  simp only [AZ_Assert, hempty, Bool.not_false, Bool.and_false, bind, Except.bind, pure,
    Except.pure, hdrop, List.append_nil]
  cases assertsFatal <;> rfl

/-- The number of entry edges. -/
theorem length_entryEdgesSpec (u : SubpassRenderAttachmentLayout) :
    (entryEdgesSpec u).length
      = (if u.m_depthStencilDescriptor.IsValid = true then 1 else 0)
        + (if 0 < u.m_rendertargetCount then 1 else 0) := by
  unfold entryEdgesSpec
  split_ifs <;> rfl

/-- A lookup leaves the manager as it is, so the calls of a sequence that are lookups
can be left out without a change of the manager after the sequence. -/
theorem runCalls_filter_isSet (calls : List ManagerCall) :
    ∀ m : SubpassDependenciesManager,
      runCalls m calls = runCalls m (calls.filter ManagerCall.isSet) := by
  induction calls with
  | nil => intro m; rfl
  | cons call rest ih =>
    intro m
    cases call with
    | SetSubpassDependencies scopeIds handle =>
      simp only [runCalls, List.foldl_cons, List.filter_cons, ManagerCall.isSet, if_true]
      exact ih _
    | GetSubpassDependencies scopeId =>
      simp only [runCalls, List.foldl_cons, List.filter_cons, ManagerCall.isSet,
        ManagerCall.run]
      exact ih _

/-! ## The claims -/

/-- C1: for a layout of `n >= 2` subpasses within the capacity of the layout array
(`n` a `uint32_t`), the output of `BuildSubpassDependencies` holds, for every `i`
with `i + 1 < n`, exactly one edge from `i` to `i + 1`, and it is the by-region
edge whose source and destination masks follow from the render target and input
attachment counts of the subpasses `i` and `i + 1`; the edges from a subpass to
its successor are in the output in increasing order of `i`. -/
theorem C1_inter_subpass_edges (assertsFatal : Bool) (layout : RenderAttachmentLayout)
    (h2 : 2 ≤ layout.m_subpassCount)
    (hcap : layout.m_subpassCount ≤ layout.m_subpassLayouts.length)
    (h32 : layout.m_subpassCount < 2 ^ 32) :
    ∃ deps, SubpassDependenciesManager.BuildSubpassDependencies assertsFatal layout = .ok deps
      ∧ (∀ i (hi : i + 1 < layout.m_subpassCount),
          deps.m_subpassDependencies.filter
              (fun d => decide (d.srcSubpass = i ∧ d.dstSubpass = i + 1))
            = [interSubpassEdgeSpec i
                (layout.m_subpassLayouts.get ⟨i, by omega⟩)
                (layout.m_subpassLayouts.get ⟨i + 1, by omega⟩)])
      ∧ (deps.m_subpassDependencies.filter
              (fun d => decide (d.srcSubpass + 1 < layout.m_subpassCount
                ∧ d.dstSubpass = d.srcSubpass + 1))).map (fun d => d.srcSubpass)
          = List.range (layout.m_subpassCount - 1) := by
  refine ⟨_, BuildSubpassDependencies_eq assertsFatal layout h2 hcap h32, ?_, ?_⟩
  · intro i hi
    have hext : VK_SUBPASS_EXTERNAL = 4294967295 := rfl
    simp only [List.filter_append]
    rw [filter_entryEdgesSpec_nil, interEdges,
      filter_map_range_single _ _ i (layout.m_subpassCount - 1) (by omega)]
    · have hexit : ¬ (layout.m_subpassCount - 1 = i) := by omega
      simp [exitEdgeSpec, interSubpassEdgeSpec, hexit, List.getD_eq_getElem?_getD,
        List.getElem?_eq_getElem (show i < layout.m_subpassLayouts.length by omega),
        List.getElem?_eq_getElem (show i + 1 < layout.m_subpassLayouts.length by omega)]
    · intro j _
      simp [interSubpassEdgeSpec]
    · intro d hs hd
      simp [hs, hd]
  · have hext : VK_SUBPASS_EXTERNAL = 4294967295 := rfl
    simp only [List.filter_append, List.map_append]
    rw [filter_entryEdgesSpec_nil, List.filter_eq_self.mpr]
    · rw [filter_exitEdgeSpec_nil, map_srcSubpass_interEdges]
      · simp
      · simp [exitEdgeSpec]
        omega
    · intro d hd
      obtain ⟨h1, h3, _⟩ := mem_interEdges _ _ d hd
      simp [h3]
      omega
    · intro d hs hd
      simp [hs, hd, hext]

/-- C1, witness: the statement at a layout of three subpasses in an array of four. -/
theorem C1_inter_subpass_edges_witness :
    ∃ deps, SubpassDependenciesManager.BuildSubpassDependencies true layoutThree = .ok deps
      ∧ (∀ i (hi : i + 1 < layoutThree.m_subpassCount),
          deps.m_subpassDependencies.filter
              (fun d => decide (d.srcSubpass = i ∧ d.dstSubpass = i + 1))
            = [interSubpassEdgeSpec i
                (layoutThree.m_subpassLayouts.get ⟨i, by simp [layoutThree] at hi ⊢; omega⟩)
                (layoutThree.m_subpassLayouts.get ⟨i + 1, by simp [layoutThree] at hi ⊢; omega⟩)])
      ∧ (deps.m_subpassDependencies.filter
              (fun d => decide (d.srcSubpass + 1 < layoutThree.m_subpassCount
                ∧ d.dstSubpass = d.srcSubpass + 1))).map (fun d => d.srcSubpass)
          = List.range (layoutThree.m_subpassCount - 1) :=
  C1_inter_subpass_edges true layoutThree (by decide) (by decide) (by decide)

/-- C2: for a layout of at least two subpasses (the count a `uint32_t` within the
capacity of the layout array), the output of `BuildSubpassDependencies` starts with the entry edges of subpass 0 and no edge
after them has the external sentinel as its source; the depth/stencil entry
edge is in the output exactly when subpass 0 has a valid depth/stencil
descriptor, the color entry edge exactly when subpass 0 has a render target,
the depth/stencil edge before the color edge, and no entry edge when neither
holds. -/
theorem C2_entry_edges (assertsFatal : Bool) (layout : RenderAttachmentLayout)
    (h2 : 2 ≤ layout.m_subpassCount)
    (hcap : layout.m_subpassCount ≤ layout.m_subpassLayouts.length)
    (h32 : layout.m_subpassCount < 2 ^ 32) :
    ∃ deps rest,
      SubpassDependenciesManager.BuildSubpassDependencies assertsFatal layout = .ok deps
      ∧ deps.m_subpassDependencies
          = entryEdgesSpec (layout.m_subpassLayouts.get ⟨0, by omega⟩) ++ rest
      ∧ (∀ d ∈ rest, d.srcSubpass ≠ VK_SUBPASS_EXTERNAL)
      ∧ (depthStencilEntryEdgeSpec ∈ deps.m_subpassDependencies
          ↔ (layout.m_subpassLayouts.get ⟨0, by omega⟩).m_depthStencilDescriptor.IsValid = true)
      ∧ (colorEntryEdgeSpec ∈ deps.m_subpassDependencies
          ↔ 0 < (layout.m_subpassLayouts.get ⟨0, by omega⟩).m_rendertargetCount)
      ∧ deps.m_subpassDependencies.filter (fun d => decide (d.srcSubpass = VK_SUBPASS_EXTERNAL))
          = (if (layout.m_subpassLayouts.get ⟨0, by omega⟩).m_depthStencilDescriptor.IsValid = true
              then [depthStencilEntryEdgeSpec] else [])
            ++ (if 0 < (layout.m_subpassLayouts.get ⟨0, by omega⟩).m_rendertargetCount
              then [colorEntryEdgeSpec] else []) := by
  have hext : VK_SUBPASS_EXTERNAL = 4294967295 := rfl
  have h0 : 0 < layout.m_subpassLayouts.length := by omega
  have hget : layout.m_subpassLayouts.getD 0 noUsage = layout.m_subpassLayouts.get ⟨0, h0⟩ := by
    rw [List.getD_eq_getElem _ _ h0, List.get_eq_getElem]
  have hrest : ∀ d ∈ interEdges layout.m_subpassLayouts (layout.m_subpassCount - 1)
      ++ [exitEdgeSpec (layout.m_subpassCount - 1)], d.srcSubpass ≠ VK_SUBPASS_EXTERNAL := by
    intro d hd
    rcases List.mem_append.mp hd with hd | hd
    · have := (mem_interEdges _ _ d hd).1
      omega
    · rw [List.mem_singleton.mp hd]
      simp only [exitEdgeSpec]
      omega
  have hmem : ∀ e, e.srcSubpass = VK_SUBPASS_EXTERNAL →
      (e ∈ entryEdgesSpec (layout.m_subpassLayouts.get ⟨0, h0⟩)
          ++ (interEdges layout.m_subpassLayouts (layout.m_subpassCount - 1)
          ++ [exitEdgeSpec (layout.m_subpassCount - 1)])
        ↔ e ∈ entryEdgesSpec (layout.m_subpassLayouts.get ⟨0, h0⟩)) := by
    intro e he
    rw [List.mem_append]
    constructor
    · rintro (h | h)
      · exact h
      · exact absurd he (hrest e h)
    · exact Or.inl
  refine ⟨_, interEdges layout.m_subpassLayouts (layout.m_subpassCount - 1)
      ++ [exitEdgeSpec (layout.m_subpassCount - 1)],
    BuildSubpassDependencies_eq assertsFatal layout h2 hcap h32, ?_, hrest, ?_, ?_, ?_⟩
  · simp only [hget, List.append_assoc]
  · simp only [hget, List.append_assoc]
    rw [hmem _ rfl]
    unfold entryEdgesSpec
    have hne : depthStencilEntryEdgeSpec ≠ colorEntryEdgeSpec := by decide
    split_ifs <;> simp_all
  · simp only [hget, List.append_assoc]
    rw [hmem _ rfl]
    unfold entryEdgesSpec
    have hne : colorEntryEdgeSpec ≠ depthStencilEntryEdgeSpec := by decide
    split_ifs <;> simp_all
  · simp only [hget, List.append_assoc]
    rw [List.filter_append, List.filter_eq_self.mpr, List.filter_eq_nil_iff.mpr]
    · simp [entryEdgesSpec]
    · intro d hd
      simpa using hrest d hd
    · intro d hd
      simpa using (mem_entryEdgesSpec _ d hd).1

/-- C2, witness: the statement at a layout of three subpasses in an array of four. -/
theorem C2_entry_edges_witness :
    ∃ deps rest,
      SubpassDependenciesManager.BuildSubpassDependencies true layoutThree = .ok deps
      ∧ deps.m_subpassDependencies
          = entryEdgesSpec (layoutThree.m_subpassLayouts.get ⟨0, by decide⟩) ++ rest
      ∧ (∀ d ∈ rest, d.srcSubpass ≠ VK_SUBPASS_EXTERNAL)
      ∧ (depthStencilEntryEdgeSpec ∈ deps.m_subpassDependencies
          ↔ (layoutThree.m_subpassLayouts.get ⟨0, by decide⟩).m_depthStencilDescriptor.IsValid
              = true)
      ∧ (colorEntryEdgeSpec ∈ deps.m_subpassDependencies
          ↔ 0 < (layoutThree.m_subpassLayouts.get ⟨0, by decide⟩).m_rendertargetCount)
      ∧ deps.m_subpassDependencies.filter (fun d => decide (d.srcSubpass = VK_SUBPASS_EXTERNAL))
          = (if (layoutThree.m_subpassLayouts.get ⟨0, by decide⟩).m_depthStencilDescriptor.IsValid
                = true
              then [depthStencilEntryEdgeSpec] else [])
            ++ (if 0 < (layoutThree.m_subpassLayouts.get ⟨0, by decide⟩).m_rendertargetCount
              then [colorEntryEdgeSpec] else []) :=
  C2_entry_edges true layoutThree (by decide) (by decide) (by decide)

/-- C3: for a layout of `n >= 2` subpasses (`n` a `uint32_t` within the capacity of
the layout array), the last edge of the output of
`BuildSubpassDependencies` is the exit edge from subpass `n - 1` to the external
sentinel, by region, from color attachment output with color read and write to
bottom of pipe with memory read; no edge before it has the external sentinel as
its destination; and every other layout of the same subpass count, whatever its
usage descriptors, has the same last edge. -/
theorem C3_exit_edge (assertsFatal : Bool) (layout : RenderAttachmentLayout)
    (h2 : 2 ≤ layout.m_subpassCount)
    (hcap : layout.m_subpassCount ≤ layout.m_subpassLayouts.length)
    (h32 : layout.m_subpassCount < 2 ^ 32) :
    ∃ deps before,
      SubpassDependenciesManager.BuildSubpassDependencies assertsFatal layout = .ok deps
      ∧ deps.m_subpassDependencies = before ++
          [{ srcSubpass := layout.m_subpassCount - 1
             dstSubpass := VK_SUBPASS_EXTERNAL
             dependencyFlags := VK_DEPENDENCY_BY_REGION_BIT
             srcStageMask := VK_PIPELINE_STAGE_COLOR_ATTACHMENT_OUTPUT_BIT
             srcAccessMask := VK_ACCESS_COLOR_ATTACHMENT_READ_BIT
               ||| VK_ACCESS_COLOR_ATTACHMENT_WRITE_BIT
             dstStageMask := VK_PIPELINE_STAGE_BOTTOM_OF_PIPE_BIT
             dstAccessMask := VK_ACCESS_MEMORY_READ_BIT }]
      ∧ (∀ d ∈ before, d.dstSubpass ≠ VK_SUBPASS_EXTERNAL)
      ∧ (∀ other : RenderAttachmentLayout,
          other.m_subpassCount = layout.m_subpassCount →
          other.m_subpassCount ≤ other.m_subpassLayouts.length →
          ∃ deps2,
            SubpassDependenciesManager.BuildSubpassDependencies assertsFatal other = .ok deps2
            ∧ deps2.m_subpassDependencies.getLast? = deps.m_subpassDependencies.getLast?) := by
  have hext : VK_SUBPASS_EXTERNAL = 4294967295 := rfl
  refine ⟨_, entryEdgesSpec (layout.m_subpassLayouts.getD 0 noUsage)
      ++ interEdges layout.m_subpassLayouts (layout.m_subpassCount - 1),
    BuildSubpassDependencies_eq assertsFatal layout h2 hcap h32, rfl, ?_, ?_⟩
  · intro d hd
    rcases List.mem_append.mp hd with hd | hd
    · rw [(mem_entryEdgesSpec _ d hd).2.1, hext]
      decide
    · obtain ⟨h1, h3, _⟩ := mem_interEdges _ _ d hd
      omega
  · intro other hcount hcap2
    refine ⟨_, BuildSubpassDependencies_eq assertsFatal other (by omega) hcap2 (by omega), ?_⟩
    simp only [List.getLast?_concat, hcount]

/-- C3, witness: the statement at a layout of three subpasses in an array of four. -/
theorem C3_exit_edge_witness :
    ∃ deps before,
      SubpassDependenciesManager.BuildSubpassDependencies true layoutThree = .ok deps
      ∧ deps.m_subpassDependencies = before ++
          [{ srcSubpass := layoutThree.m_subpassCount - 1
             dstSubpass := VK_SUBPASS_EXTERNAL
             dependencyFlags := VK_DEPENDENCY_BY_REGION_BIT
             srcStageMask := VK_PIPELINE_STAGE_COLOR_ATTACHMENT_OUTPUT_BIT
             srcAccessMask := VK_ACCESS_COLOR_ATTACHMENT_READ_BIT
               ||| VK_ACCESS_COLOR_ATTACHMENT_WRITE_BIT
             dstStageMask := VK_PIPELINE_STAGE_BOTTOM_OF_PIPE_BIT
             dstAccessMask := VK_ACCESS_MEMORY_READ_BIT }]
      ∧ (∀ d ∈ before, d.dstSubpass ≠ VK_SUBPASS_EXTERNAL)
      ∧ (∀ other : RenderAttachmentLayout,
          other.m_subpassCount = layoutThree.m_subpassCount →
          other.m_subpassCount ≤ other.m_subpassLayouts.length →
          ∃ deps2,
            SubpassDependenciesManager.BuildSubpassDependencies true other = .ok deps2
            ∧ deps2.m_subpassDependencies.getLast? = deps.m_subpassDependencies.getLast?) :=
  C3_exit_edge true layoutThree (by decide) (by decide) (by decide)

/-- C4, counterexample: where assertions are not enforced, `BuildSubpassDependencies`
of a layout of one subpass returns a dependency set, one without edges. -/
theorem C4_counterexample :
    SubpassDependenciesManager.BuildSubpassDependencies false layoutOne
      = .ok { m_subpassDependencies := [], m_subpassCount := 1 } := rfl

/-- C4, amended: for a layout of fewer than two subpasses, `BuildSubpassDependencies`
stops at its assertion where assertions are enforced, and where they are not it
returns a set without edges that records the subpass count. -/
theorem C4_fewer_than_two_subpasses (layout : RenderAttachmentLayout)
    (h : layout.m_subpassCount < 2) :
    SubpassDependenciesManager.BuildSubpassDependencies true layout = .error .assertFailed
    ∧ SubpassDependenciesManager.BuildSubpassDependencies false layout
        = .ok { m_subpassDependencies := [], m_subpassCount := layout.m_subpassCount } := by
  obtain ⟨n, layouts⟩ := layout
  have hn : n = 0 ∨ n = 1 := by
    simp only at h
    omega
  rcases hn with rfl | rfl
  · exact ⟨rfl, rfl⟩
  · exact ⟨rfl, rfl⟩

/-- C4, witness: the amended statement at a layout of one subpass. -/
theorem C4_fewer_than_two_subpasses_witness :
    SubpassDependenciesManager.BuildSubpassDependencies true layoutOne = .error .assertFailed
    ∧ SubpassDependenciesManager.BuildSubpassDependencies false layoutOne
        = .ok { m_subpassDependencies := [], m_subpassCount := layoutOne.m_subpassCount } :=
  C4_fewer_than_two_subpasses layoutOne (by decide)

/-- C5: for a layout of at least two subpasses (the count a `uint32_t` within the
capacity of the layout array), whatever its usage descriptors, the edge sequence of the set `BuildSubpassDependencies` returns is not empty, so
the assertion at the start of `CopySubpassDependencies` holds for it and the copy
returns. -/
theorem C5_built_set_not_empty (assertsFatal : Bool) (layout : RenderAttachmentLayout)
    (h2 : 2 ≤ layout.m_subpassCount)
    (hcap : layout.m_subpassCount ≤ layout.m_subpassLayouts.length)
    (h32 : layout.m_subpassCount < 2 ^ 32) :
    ∃ deps,
      SubpassDependenciesManager.BuildSubpassDependencies assertsFatal layout = .ok deps
      ∧ deps.m_subpassDependencies ≠ []
      ∧ AZ_Assert true (!deps.m_subpassDependencies.isEmpty) = .ok ()
      ∧ ∀ dst, ∃ out, deps.CopySubpassDependencies true dst = .ok out := by
  refine ⟨_, BuildSubpassDependencies_eq assertsFatal layout h2 hcap h32, ?_, ?_, ?_⟩
  · simp
  · simp [AZ_Assert]
  · intro dst
    simp [SubpassDependencies.CopySubpassDependencies, AZ_Assert, bind, Except.bind, pure,
      Except.pure]

/-- C5, witness: the statement at two subpasses without any attachment. -/
theorem C5_built_set_not_empty_witness :
    ∃ deps,
      SubpassDependenciesManager.BuildSubpassDependencies true layoutBare = .ok deps
      ∧ deps.m_subpassDependencies ≠ []
      ∧ AZ_Assert true (!deps.m_subpassDependencies.isEmpty) = .ok ()
      ∧ ∀ dst, ∃ out, deps.CopySubpassDependencies true dst = .ok out :=
  C5_built_set_not_empty true layoutBare (by decide) (by decide) (by decide)

/-- C6: after `SetSubpassDependencies` with a list of scope ids and a non-null handle,
`GetSubpassDependencies` returns the object of the handle for every id of the
list, the same object for all of them; and on the manager as first created,
after registering under two ids, every other id has no entry. -/
theorem C6_register_then_lookup (m : SubpassDependenciesManager) (scopeIds : List ScopeId)
    (S : Ref SubpassDependencies) :
    (∀ scopeId ∈ scopeIds,
        (m.SetSubpassDependencies scopeIds (some S)).GetSubpassDependencies scopeId = some S)
    ∧ (∀ id1 ∈ scopeIds, ∀ id2 ∈ scopeIds,
        (m.SetSubpassDependencies scopeIds (some S)).GetSubpassDependencies id1
          = (m.SetSubpassDependencies scopeIds (some S)).GetSubpassDependencies id2)
    ∧ (∀ A B C : ScopeId, C ≠ A → C ≠ B →
        (SubpassDependenciesManager.initial.SetSubpassDependencies [A, B]
            (some S)).GetSubpassDependencies C = none) := by
  refine ⟨?_, ?_, ?_⟩
  · intro scopeId h
    rw [GetSubpassDependencies_SetSubpassDependencies, if_pos h]
  · intro id1 h1 id2 h2
    rw [GetSubpassDependencies_SetSubpassDependencies,
      GetSubpassDependencies_SetSubpassDependencies, if_pos h1, if_pos h2]
  · intro A B C hA hB
    rw [GetSubpassDependencies_SetSubpassDependencies]
    simp [hA, hB, SubpassDependenciesManager.GetSubpassDependencies,
      SubpassDependenciesManager.initial, unordered_map.find]

/-- C6, witness: two ids registered with one set, a third id looked up. -/
theorem C6_register_then_lookup_witness :
    (SubpassDependenciesManager.initial.SetSubpassDependencies [scopeA, scopeB]
        (some setOne)).GetSubpassDependencies scopeA = some setOne
    ∧ (SubpassDependenciesManager.initial.SetSubpassDependencies [scopeA, scopeB]
        (some setOne)).GetSubpassDependencies scopeB = some setOne
    ∧ (SubpassDependenciesManager.initial.SetSubpassDependencies [scopeA, scopeB]
        (some setOne)).GetSubpassDependencies scopeC = none :=
  ⟨(C6_register_then_lookup SubpassDependenciesManager.initial [scopeA, scopeB] setOne).1
      scopeA (by decide),
    (C6_register_then_lookup SubpassDependenciesManager.initial [scopeA, scopeB] setOne).1
      scopeB (by decide),
    (C6_register_then_lookup SubpassDependenciesManager.initial [scopeA, scopeB] setOne).2.2
      scopeA scopeB scopeC (by decide) (by decide)⟩

/-- C7: after two calls of `SetSubpassDependencies` with non-null handles,
`GetSubpassDependencies` returns the object of the second handle for every id of
the second list and the object of the first handle for every id of the first
list that is not in the second; registering one id twice leaves the second
object under it. -/
theorem C7_last_write_wins (m : SubpassDependenciesManager) (ids1 ids2 : List ScopeId)
    (S1 S2 : Ref SubpassDependencies) :
    (∀ scopeId ∈ ids2,
        ((m.SetSubpassDependencies ids1 (some S1)).SetSubpassDependencies ids2
            (some S2)).GetSubpassDependencies scopeId = some S2)
    ∧ (∀ scopeId ∈ ids1, scopeId ∉ ids2 →
        ((m.SetSubpassDependencies ids1 (some S1)).SetSubpassDependencies ids2
            (some S2)).GetSubpassDependencies scopeId = some S1)
    ∧ (∀ A : ScopeId,
        ((m.SetSubpassDependencies [A] (some S1)).SetSubpassDependencies [A]
            (some S2)).GetSubpassDependencies A = some S2) := by
  refine ⟨?_, ?_, ?_⟩
  · intro scopeId h
    rw [GetSubpassDependencies_SetSubpassDependencies, if_pos h]
  · intro scopeId h1 h2
    rw [GetSubpassDependencies_SetSubpassDependencies, if_neg h2,
      GetSubpassDependencies_SetSubpassDependencies, if_pos h1]
  · intro A
    rw [GetSubpassDependencies_SetSubpassDependencies, if_pos (List.mem_singleton.mpr rfl)]

/-- C7, witness: two registrations whose id lists overlap in one id. -/
theorem C7_last_write_wins_witness :
    ((SubpassDependenciesManager.initial.SetSubpassDependencies [scopeA, scopeB]
        (some setOne)).SetSubpassDependencies [scopeB, scopeC]
        (some setTwo)).GetSubpassDependencies scopeB = some setTwo
    ∧ ((SubpassDependenciesManager.initial.SetSubpassDependencies [scopeA, scopeB]
        (some setOne)).SetSubpassDependencies [scopeB, scopeC]
        (some setTwo)).GetSubpassDependencies scopeA = some setOne :=
  ⟨(C7_last_write_wins SubpassDependenciesManager.initial [scopeA, scopeB] [scopeB, scopeC]
      setOne setTwo).1 scopeB (by decide),
    (C7_last_write_wins SubpassDependenciesManager.initial [scopeA, scopeB] [scopeB, scopeC]
      setOne setTwo).2.1 scopeA (by decide) (by decide)⟩

/-- C8, counterexample: after one registration of a scope id with the null handle,
`GetSubpassDependencies` of that id returns `nullptr` although a call listed it. -/
theorem C8_counterexample :
    (registerAll [([scopeA], none)]).GetSubpassDependencies scopeA = none
    ∧ ¬ ((registerAll [([scopeA], none)]).GetSubpassDependencies scopeA = none
          ↔ ∀ call ∈ [(([scopeA], none) : List ScopeId × shared_ptr SubpassDependencies)],
              scopeA ∉ call.1) := by
  decide

/-- C8, amended: after any sequence of `SetSubpassDependencies` calls on the manager as
first created, `GetSubpassDependencies` of a scope id returns the pointer held by
the handle of the last call that listed the id, and `nullptr` when no call
listed it; when every handle of the sequence is non-null, it returns `nullptr`
if and only if no call listed the id. -/
theorem C8_lookup_after_calls
    (calls : List (List ScopeId × shared_ptr SubpassDependencies)) (scopeId : ScopeId) :
    ((registerAll calls).GetSubpassDependencies scopeId
        = match lastRegistered calls scopeId with
          | some handle => shared_ptr.get handle
          | none => none)
    ∧ ((∀ call ∈ calls, scopeId ∉ call.1) → lastRegistered calls scopeId = none)
    ∧ ((∀ call ∈ calls, call.2 ≠ none) →
        ((registerAll calls).GetSubpassDependencies scopeId = none
          ↔ ∀ call ∈ calls, scopeId ∉ call.1)) := by
  have hnone : (∀ call ∈ calls, scopeId ∉ call.1) → lastRegistered calls scopeId = none := by
    intro h
    simp only [lastRegistered, Option.map_eq_none', List.find?_eq_none, List.mem_reverse]
    intro call hc
    simpa using h call hc
  refine ⟨GetSubpassDependencies_registerAll calls scopeId, hnone, ?_⟩
  intro hnn
  rw [GetSubpassDependencies_registerAll]
  constructor
  · intro hget call hc hmem
    cases hlast : lastRegistered calls scopeId with
    | none =>
      simp only [lastRegistered, Option.map_eq_none', List.find?_eq_none, List.mem_reverse]
        at hlast
      exact hlast call hc (by simpa using hmem)
    | some handle =>
      rw [hlast] at hget
      simp only [lastRegistered, Option.map_eq_some'] at hlast
      obtain ⟨c, hfind, hsnd⟩ := hlast
      have hcmem : c ∈ calls := by
        have := List.mem_of_find?_eq_some hfind
        simpa using this
      exact hnn c hcmem (by rw [hsnd]; exact hget)
  · intro h
    rw [hnone h]

/-- C8, witness: two registrations with non-null handles, one id in neither and one in both. -/
theorem C8_lookup_after_calls_witness :
    (registerAll [([scopeA], some setOne), ([scopeA, scopeB], some setTwo)]
        ).GetSubpassDependencies scopeC = none
    ∧ (registerAll [([scopeA], some setOne), ([scopeA, scopeB], some setTwo)]
        ).GetSubpassDependencies scopeA ≠ none :=
  ⟨((C8_lookup_after_calls [([scopeA], some setOne), ([scopeA, scopeB], some setTwo)]
        scopeC).2.2 (by decide)).mpr (by decide),
    fun h => absurd
      (((C8_lookup_after_calls [([scopeA], some setOne), ([scopeA, scopeB], some setTwo)]
        scopeA).2.2 (by decide)).mp h) (by decide)⟩

/-- C9, counterexample: `SetSubpassDependencies` with the null handle, or with a handle
to a set whose edge sequence is empty, does not fail: the handle is stored
under the scope id. -/
theorem C9_counterexample :
    (SubpassDependenciesManager.initial.SetSubpassDependencies [scopeA]
        none).m_subpassDependenciesTable = [(scopeA, none)]
    ∧ (SubpassDependenciesManager.initial.SetSubpassDependencies [scopeA]
        (some setEmpty)).m_subpassDependenciesTable = [(scopeA, some setEmpty)]
    ∧ (SubpassDependenciesManager.initial.SetSubpassDependencies [scopeA]
        (some setEmpty)).GetSubpassDependencies scopeA = some setEmpty := by
  decide

/-- C9, amended: `SetSubpassDependencies` checks nothing about the handle: for every
handle, the null handle and a handle to a set without edges included, the very
handle is stored under every listed scope id. The emptiness of a set is only
asserted when it is copied: where assertions are enforced,
`CopySubpassDependencies` of a set without edges stops at its assertion. -/
theorem C9_register_stores_any_handle (m : SubpassDependenciesManager)
    (scopeIds : List ScopeId) (handle : shared_ptr SubpassDependencies) :
    (∀ scopeId ∈ scopeIds,
        unordered_map.find
          (m.SetSubpassDependencies scopeIds handle).m_subpassDependenciesTable scopeId
          = some handle)
    ∧ (∀ (set : SubpassDependencies) (dst : List VkSubpassDependency),
        set.m_subpassDependencies = [] →
        set.CopySubpassDependencies true dst = .error .assertFailed) := by
  refine ⟨?_, ?_⟩
  · intro scopeId h
    rw [find_SetSubpassDependencies, if_pos h]
  · intro set dst h
    simp [SubpassDependencies.CopySubpassDependencies, AZ_Assert, h, bind, Except.bind]

/-- C9, witness: the null handle registered under two ids, and the copy of a set without
edges. -/
theorem C9_register_stores_any_handle_witness :
    unordered_map.find
        (SubpassDependenciesManager.initial.SetSubpassDependencies [scopeA, scopeB]
          none).m_subpassDependenciesTable scopeB = some none
    ∧ setEmpty.pointee.CopySubpassDependencies true [colorEntryEdgeSpec] = .error .assertFailed :=
  ⟨(C9_register_stores_any_handle SubpassDependenciesManager.initial [scopeA, scopeB] none).1
      scopeB (by decide),
    (C9_register_stores_any_handle SubpassDependenciesManager.initial [scopeA, scopeB] none).2
      setEmpty.pointee [colorEntryEdgeSpec] rfl⟩

/-- C10: for two subpasses that each have one render target, no depth/stencil
attachment and no input attachment, `BuildSubpassDependencies` returns exactly
three edges: the color entry edge, the by-region edge from 0 to 1 from color
attachment output and color write to fragment shader and color write, and the
by-region exit edge from 1. -/
theorem C10_two_color_subpasses (assertsFatal : Bool)
    (unused : List SubpassRenderAttachmentLayout) :
    SubpassDependenciesManager.BuildSubpassDependencies assertsFatal
        { m_subpassCount := 2
          m_subpassLayouts :=
            { m_rendertargetCount := 1, m_subpassInputCount := 0,
              m_depthStencilDescriptor := ⟨false⟩ }
            :: { m_rendertargetCount := 1, m_subpassInputCount := 0,
                 m_depthStencilDescriptor := ⟨false⟩ }
            :: unused }
      = .ok
        { m_subpassCount := 2
          m_subpassDependencies :=
            [ { srcSubpass := VK_SUBPASS_EXTERNAL
                dstSubpass := 0
                srcStageMask := VK_PIPELINE_STAGE_COLOR_ATTACHMENT_OUTPUT_BIT
                dstStageMask := VK_PIPELINE_STAGE_COLOR_ATTACHMENT_OUTPUT_BIT
                srcAccessMask := 0
                dstAccessMask := VK_ACCESS_COLOR_ATTACHMENT_WRITE_BIT
                dependencyFlags := 0 },
              { srcSubpass := 0
                dstSubpass := 1
                srcStageMask := VK_PIPELINE_STAGE_COLOR_ATTACHMENT_OUTPUT_BIT
                srcAccessMask := VK_ACCESS_COLOR_ATTACHMENT_WRITE_BIT
                dstStageMask := VK_PIPELINE_STAGE_FRAGMENT_SHADER_BIT
                dstAccessMask := VK_ACCESS_COLOR_ATTACHMENT_WRITE_BIT
                dependencyFlags := VK_DEPENDENCY_BY_REGION_BIT },
              { srcSubpass := 1
                dstSubpass := VK_SUBPASS_EXTERNAL
                srcStageMask := VK_PIPELINE_STAGE_COLOR_ATTACHMENT_OUTPUT_BIT
                srcAccessMask := VK_ACCESS_COLOR_ATTACHMENT_READ_BIT
                  ||| VK_ACCESS_COLOR_ATTACHMENT_WRITE_BIT
                dstStageMask := VK_PIPELINE_STAGE_BOTTOM_OF_PIPE_BIT
                dstAccessMask := VK_ACCESS_MEMORY_READ_BIT
                dependencyFlags := VK_DEPENDENCY_BY_REGION_BIT } ] } := by
  rw [BuildSubpassDependencies_eq assertsFatal _ (le_refl 2) (by simp) (by simp)]
  simp [entryEdgesSpec, interEdges, interSubpassEdgeSpec, exitEdgeSpec, colorEntryEdgeSpec,
    RenderAttachmentDescriptor.IsValid, List.range_succ]

/-- C11: for two subpasses where subpass 0 has a depth/stencil attachment and no
render target and subpass 1 has no render target, whatever the input attachment
counts and the depth/stencil descriptor of subpass 1, `BuildSubpassDependencies`
returns the depth/stencil entry edge as its only entry edge (no color entry
edge), then the edge from 0 to 1 with the early and late fragment tests stages
and the depth/stencil write access on both sides, then the exit edge. -/
theorem C11_two_depth_only_subpasses (assertsFatal : Bool) (inputCount0 inputCount1 : Nat)
    (depthStencil1 : RenderAttachmentDescriptor)
    (unused : List SubpassRenderAttachmentLayout) :
    ∃ deps exit,
      SubpassDependenciesManager.BuildSubpassDependencies assertsFatal
          { m_subpassCount := 2
            m_subpassLayouts :=
              { m_rendertargetCount := 0, m_subpassInputCount := inputCount0,
                m_depthStencilDescriptor := ⟨true⟩ }
              :: { m_rendertargetCount := 0, m_subpassInputCount := inputCount1,
                   m_depthStencilDescriptor := depthStencil1 }
              :: unused } = .ok deps
      ∧ deps.m_subpassDependencies =
          [ { srcSubpass := VK_SUBPASS_EXTERNAL
              dstSubpass := 0
              srcStageMask := VK_PIPELINE_STAGE_EARLY_FRAGMENT_TESTS_BIT
                ||| VK_PIPELINE_STAGE_LATE_FRAGMENT_TESTS_BIT
              dstStageMask := VK_PIPELINE_STAGE_EARLY_FRAGMENT_TESTS_BIT
                ||| VK_PIPELINE_STAGE_LATE_FRAGMENT_TESTS_BIT
              srcAccessMask := 0
              dstAccessMask := VK_ACCESS_DEPTH_STENCIL_ATTACHMENT_WRITE_BIT
              dependencyFlags := 0 },
            { srcSubpass := 0
              dstSubpass := 1
              srcStageMask := VK_PIPELINE_STAGE_EARLY_FRAGMENT_TESTS_BIT
                ||| VK_PIPELINE_STAGE_LATE_FRAGMENT_TESTS_BIT
              dstStageMask := VK_PIPELINE_STAGE_EARLY_FRAGMENT_TESTS_BIT
                ||| VK_PIPELINE_STAGE_LATE_FRAGMENT_TESTS_BIT
              srcAccessMask := VK_ACCESS_DEPTH_STENCIL_ATTACHMENT_WRITE_BIT
              dstAccessMask := VK_ACCESS_DEPTH_STENCIL_ATTACHMENT_WRITE_BIT
              dependencyFlags := VK_DEPENDENCY_BY_REGION_BIT },
            exit ]
      ∧ exit.srcSubpass = 1
      ∧ exit.dstSubpass = VK_SUBPASS_EXTERNAL
      ∧ colorEntryEdgeSpec ∉ deps.m_subpassDependencies
      ∧ (deps.m_subpassDependencies.filter
            (fun d => decide (d.srcSubpass = VK_SUBPASS_EXTERNAL))).length = 1 := by
  refine ⟨⟨[depthStencilEntryEdgeSpec, interSubpassEdgeSpec 0 noUsage noUsage, exitEdgeSpec 1], 2⟩,
    exitEdgeSpec 1, ?_, rfl, rfl, rfl, by decide, by decide⟩
  rw [BuildSubpassDependencies_eq assertsFatal _ (le_refl 2) (by simp) (by simp)]
  simp [entryEdgesSpec, interEdges, interSubpassEdgeSpec, noUsage,
    RenderAttachmentDescriptor.IsValid, List.range_succ]

/-- C12, counterexample: in the output for two subpasses that each have one render
target, the last edge has the external sentinel as its destination and is by
region, so not every edge with an external endpoint has the by-region flag
clear. -/
theorem C12_counterexample :
    SubpassDependenciesManager.BuildSubpassDependencies true layoutTwoColor
      = .ok { m_subpassDependencies :=
                [colorEntryEdgeSpec,
                 interSubpassEdgeSpec 0
                   { m_rendertargetCount := 1, m_subpassInputCount := 0,
                     m_depthStencilDescriptor := ⟨false⟩ }
                   { m_rendertargetCount := 1, m_subpassInputCount := 0,
                     m_depthStencilDescriptor := ⟨false⟩ },
                 exitEdgeSpec 1]
              m_subpassCount := 2 }
    ∧ (exitEdgeSpec 1).dstSubpass = VK_SUBPASS_EXTERNAL
    ∧ (exitEdgeSpec 1).dependencyFlags = VK_DEPENDENCY_BY_REGION_BIT
    ∧ (exitEdgeSpec 1).dependencyFlags ≠ 0
    ∧ ¬ (∀ deps,
          SubpassDependenciesManager.BuildSubpassDependencies true layoutTwoColor = .ok deps →
          ∀ d ∈ deps.m_subpassDependencies,
            d.srcSubpass = VK_SUBPASS_EXTERNAL ∨ d.dstSubpass = VK_SUBPASS_EXTERNAL →
            d.dependencyFlags = 0) := by
  have hbuild : SubpassDependenciesManager.BuildSubpassDependencies true layoutTwoColor
      = .ok { m_subpassDependencies :=
                [colorEntryEdgeSpec,
                 interSubpassEdgeSpec 0
                   { m_rendertargetCount := 1, m_subpassInputCount := 0,
                     m_depthStencilDescriptor := ⟨false⟩ }
                   { m_rendertargetCount := 1, m_subpassInputCount := 0,
                     m_depthStencilDescriptor := ⟨false⟩ },
                 exitEdgeSpec 1]
              m_subpassCount := 2 } := rfl
  refine ⟨hbuild, rfl, rfl, by decide, ?_⟩
  intro h
  have hflags := h _ hbuild (exitEdgeSpec 1) (by simp) (Or.inr rfl)
  exact absurd hflags (by decide)

/-- C12, amended: in every output of `BuildSubpassDependencies` for at least two
subpasses, the edges whose source is the external sentinel (the entry edges)
have the by-region flag clear, and every other edge, the edges from a subpass
to its successor and the exit edge to the external sentinel alike, has
`dependencyFlags = VK_DEPENDENCY_BY_REGION_BIT`. -/
theorem C12_by_region_flags (assertsFatal : Bool) (layout : RenderAttachmentLayout)
    (h2 : 2 ≤ layout.m_subpassCount)
    (hcap : layout.m_subpassCount ≤ layout.m_subpassLayouts.length)
    (h32 : layout.m_subpassCount < 2 ^ 32) :
    ∃ deps, SubpassDependenciesManager.BuildSubpassDependencies assertsFatal layout = .ok deps
      ∧ (∀ d ∈ deps.m_subpassDependencies,
          d.srcSubpass = VK_SUBPASS_EXTERNAL → d.dependencyFlags = 0)
      ∧ (∀ d ∈ deps.m_subpassDependencies,
          d.srcSubpass ≠ VK_SUBPASS_EXTERNAL →
          d.dependencyFlags = VK_DEPENDENCY_BY_REGION_BIT)
      ∧ (∀ d ∈ deps.m_subpassDependencies,
          d.dstSubpass = VK_SUBPASS_EXTERNAL →
          d.dependencyFlags = VK_DEPENDENCY_BY_REGION_BIT) := by
  have hext : VK_SUBPASS_EXTERNAL = 4294967295 := rfl
  have hall : ∀ d ∈ entryEdgesSpec (layout.m_subpassLayouts.getD 0 noUsage)
        ++ interEdges layout.m_subpassLayouts (layout.m_subpassCount - 1)
        ++ [exitEdgeSpec (layout.m_subpassCount - 1)],
      (d.srcSubpass = VK_SUBPASS_EXTERNAL ∧ d.dstSubpass = 0 ∧ d.dependencyFlags = 0)
      ∨ (d.srcSubpass < layout.m_subpassCount
          ∧ d.dependencyFlags = VK_DEPENDENCY_BY_REGION_BIT) := by
    intro d hd
    rcases List.mem_append.mp hd with hd | hd
    · rcases List.mem_append.mp hd with hd | hd
      · exact Or.inl (mem_entryEdgesSpec _ d hd)
      · obtain ⟨h1, _, h3⟩ := mem_interEdges _ _ d hd
        exact Or.inr ⟨by omega, h3⟩
    · rw [List.mem_singleton.mp hd]
      exact Or.inr ⟨by simp only [exitEdgeSpec]; omega, rfl⟩
  refine ⟨_, BuildSubpassDependencies_eq assertsFatal layout h2 hcap h32, ?_, ?_, ?_⟩
  · intro d hd hsrc
    rcases hall d hd with h | h
    · exact h.2.2
    · omega
  · intro d hd hsrc
    rcases hall d hd with h | h
    · exact absurd h.1 hsrc
    · exact h.2
  · intro d hd hdst
    rcases hall d hd with h | h
    · rw [h.2.1, hext] at hdst
      omega
    · exact h.2

/-- C12, witness: the amended statement at a layout of three subpasses. -/
theorem C12_by_region_flags_witness :
    ∃ deps, SubpassDependenciesManager.BuildSubpassDependencies true layoutThree = .ok deps
      ∧ (∀ d ∈ deps.m_subpassDependencies,
          d.srcSubpass = VK_SUBPASS_EXTERNAL → d.dependencyFlags = 0)
      ∧ (∀ d ∈ deps.m_subpassDependencies,
          d.srcSubpass ≠ VK_SUBPASS_EXTERNAL →
          d.dependencyFlags = VK_DEPENDENCY_BY_REGION_BIT)
      ∧ (∀ d ∈ deps.m_subpassDependencies,
          d.dstSubpass = VK_SUBPASS_EXTERNAL →
          d.dependencyFlags = VK_DEPENDENCY_BY_REGION_BIT) :=
  C12_by_region_flags true layoutThree (by decide) (by decide) (by decide)

/-- C13: for a layout of `n >= 2` subpasses (`n` a `uint32_t` within the capacity of
the layout array), the set `BuildSubpassDependencies` returns records
`m_subpassCount = n`, whatever the number of its edges. -/
theorem C13_records_subpass_count (assertsFatal : Bool) (layout : RenderAttachmentLayout)
    (h2 : 2 ≤ layout.m_subpassCount)
    (hcap : layout.m_subpassCount ≤ layout.m_subpassLayouts.length)
    (h32 : layout.m_subpassCount < 2 ^ 32) :
    ∃ deps, SubpassDependenciesManager.BuildSubpassDependencies assertsFatal layout = .ok deps
      ∧ deps.m_subpassCount = layout.m_subpassCount :=
  ⟨_, BuildSubpassDependencies_eq assertsFatal layout h2 hcap h32, rfl⟩

/-- C13, witness: three subpasses, four edges, and the recorded count is three. -/
theorem C13_records_subpass_count_witness :
    ∃ deps, SubpassDependenciesManager.BuildSubpassDependencies true layoutThree = .ok deps
      ∧ deps.m_subpassCount = layoutThree.m_subpassCount :=
  C13_records_subpass_count true layoutThree (by decide) (by decide) (by decide)

/-- C14: `BuildSubpassDependencies` is deterministic: two calls on layouts with the
same subpass count `n >= 2` and the same `n` usages return the same set, edge
by edge and field by field. The function is static and takes the layout alone:
there is no manager, table or earlier result among its arguments, and the
result is the same whether or not assertions are enforced. -/
theorem C14_build_deterministic (assertsFatal1 assertsFatal2 : Bool)
    (layout1 layout2 : RenderAttachmentLayout)
    (h2 : 2 ≤ layout1.m_subpassCount)
    (hcap1 : layout1.m_subpassCount ≤ layout1.m_subpassLayouts.length)
    (hcap2 : layout2.m_subpassCount ≤ layout2.m_subpassLayouts.length)
    (h32 : layout1.m_subpassCount < 2 ^ 32)
    (hcount : layout1.m_subpassCount = layout2.m_subpassCount)
    (husages : layout1.m_subpassLayouts.take layout1.m_subpassCount
      = layout2.m_subpassLayouts.take layout2.m_subpassCount) :
    ∃ deps,
      SubpassDependenciesManager.BuildSubpassDependencies assertsFatal1 layout1 = .ok deps
      ∧ SubpassDependenciesManager.BuildSubpassDependencies assertsFatal2 layout2 = .ok deps := by
  have hsame := BuildSubpassDependencies_congr_take assertsFatal1 assertsFatal2 layout1 layout2
    h2 hcap1 hcap2 h32 hcount husages
  have hbuild := BuildSubpassDependencies_eq assertsFatal1 layout1 h2 hcap1 h32
  exact ⟨_, hbuild, hsame ▸ hbuild⟩

/-- C14, witness: the layout of three subpasses and the same layout with another
entry in the unused place of the array. -/
theorem C14_build_deterministic_witness :
    ∃ deps,
      SubpassDependenciesManager.BuildSubpassDependencies true layoutThree = .ok deps
      ∧ SubpassDependenciesManager.BuildSubpassDependencies false layoutThreeOther = .ok deps :=
  C14_build_deterministic true false layoutThree layoutThreeOther (by decide) (by decide)
    (by decide) (by decide) (by decide) (by decide)

/-- C16: for a set whose edge sequence is not empty and any destination vector,
`CopySubpassDependencies` returns and leaves in the destination exactly the edge
sequence of the set: the same length, the same edges in the same order, and
nothing of what the destination held. The function is a `const` member: the
set is an argument and not a result, and a second copy of the same set into the
copied vector gives the same edges again. -/
theorem C16_copy_is_exact (assertsFatal : Bool) (self : SubpassDependencies)
    (dst : List VkSubpassDependency) (h : self.m_subpassDependencies ≠ []) :
    self.CopySubpassDependencies assertsFatal dst = .ok self.m_subpassDependencies
    ∧ (∀ out, self.CopySubpassDependencies assertsFatal dst = .ok out →
        out.length = self.m_subpassDependencies.length
        ∧ (∀ i : Nat, out[i]? = self.m_subpassDependencies[i]?)
        ∧ self.CopySubpassDependencies assertsFatal out = .ok self.m_subpassDependencies) := by
  have hcopy := CopySubpassDependencies_eq assertsFatal self dst h
  refine ⟨hcopy, ?_⟩
  intro out hout
  rw [hcopy] at hout
  cases hout
  exact ⟨rfl, fun _ => rfl, CopySubpassDependencies_eq assertsFatal self _ h⟩

/-- C16, witness: a set of two edges copied over a destination of three. -/
theorem C16_copy_is_exact_witness :
    setTwo.pointee.CopySubpassDependencies true
        [depthStencilEntryEdgeSpec, depthStencilEntryEdgeSpec, depthStencilEntryEdgeSpec]
      = .ok [colorEntryEdgeSpec, exitEdgeSpec 1] :=
  (C16_copy_is_exact true setTwo.pointee
    [depthStencilEntryEdgeSpec, depthStencilEntryEdgeSpec, depthStencilEntryEdgeSpec]
    (by decide)).1

/-- C17: for a layout of `n >= 2` subpasses (`n` a `uint32_t` within the capacity of
the layout array), `BuildSubpassDependencies` returns exactly `n` edges, plus one
if subpass 0 has a valid depth/stencil descriptor, plus one if subpass 0 has a
render target; so between `n` and `n + 2` edges, and as many edges as the
recorded subpass count exactly when subpass 0 has neither. -/
theorem C17_edge_count (assertsFatal : Bool) (layout : RenderAttachmentLayout)
    (h2 : 2 ≤ layout.m_subpassCount)
    (hcap : layout.m_subpassCount ≤ layout.m_subpassLayouts.length)
    (h32 : layout.m_subpassCount < 2 ^ 32) :
    ∃ deps, SubpassDependenciesManager.BuildSubpassDependencies assertsFatal layout = .ok deps
      ∧ deps.m_subpassDependencies.length
          = layout.m_subpassCount
            + (if (layout.m_subpassLayouts.get ⟨0, by omega⟩).m_depthStencilDescriptor.IsValid
                  = true then 1 else 0)
            + (if 0 < (layout.m_subpassLayouts.get ⟨0, by omega⟩).m_rendertargetCount
                then 1 else 0)
      ∧ layout.m_subpassCount ≤ deps.m_subpassDependencies.length
      ∧ deps.m_subpassDependencies.length ≤ layout.m_subpassCount + 2
      ∧ (deps.m_subpassDependencies.length = deps.m_subpassCount
          ↔ (layout.m_subpassLayouts.get ⟨0, by omega⟩).m_depthStencilDescriptor.IsValid = false
            ∧ (layout.m_subpassLayouts.get ⟨0, by omega⟩).m_rendertargetCount = 0) := by
  have h0 : 0 < layout.m_subpassLayouts.length := by omega
  have hget : layout.m_subpassLayouts.getD 0 noUsage = layout.m_subpassLayouts.get ⟨0, h0⟩ := by
    rw [List.getD_eq_getElem _ _ h0, List.get_eq_getElem]
  have hlen : (entryEdgesSpec (layout.m_subpassLayouts.get ⟨0, h0⟩)
        ++ interEdges layout.m_subpassLayouts (layout.m_subpassCount - 1)
        ++ [exitEdgeSpec (layout.m_subpassCount - 1)]).length
      = layout.m_subpassCount
        + (if (layout.m_subpassLayouts.get ⟨0, h0⟩).m_depthStencilDescriptor.IsValid = true
            then 1 else 0)
        + (if 0 < (layout.m_subpassLayouts.get ⟨0, h0⟩).m_rendertargetCount then 1 else 0) := by
    simp only [List.length_append, length_entryEdgesSpec, interEdges, List.length_map,
      List.length_range, List.length_singleton]
    omega
  refine ⟨_, BuildSubpassDependencies_eq assertsFatal layout h2 hcap h32, ?_⟩
  simp only [hget]
  rw [hlen]
  clear hlen hget
  generalize layout.m_subpassLayouts.get ⟨0, h0⟩ = usage0
  cases hds : usage0.m_depthStencilDescriptor.IsValid <;>
    by_cases hrt : 0 < usage0.m_rendertargetCount <;>
    simp [hrt] <;> omega

/-- C17, witness: three subpasses, a depth/stencil descriptor and no render target for
subpass 0. -/
theorem C17_edge_count_witness :
    ∃ deps, SubpassDependenciesManager.BuildSubpassDependencies true layoutThree = .ok deps
      ∧ deps.m_subpassDependencies.length = 4 := by
  obtain ⟨deps, hbuild, hlen, _⟩ :=
    C17_edge_count true layoutThree (by decide) (by decide) (by decide)
  exact ⟨deps, hbuild, hlen⟩

/-- C18: for a layout of `n` subpasses with `2 <= n` within the capacity of the layout
array, every array read of `AddSubpassDependencies` and `BuildSubpassDependencies`
is at an index below `n`: on the array cut to its first `n` entries, where a
read at `n` or beyond is a fault, every call and the whole build return, and
return what they return on the full array. The 32-bit sum `subpassIndex + 1`
does not wrap. Every subpass index written into an edge is below `n` and `n`
is at most the external sentinel: an edge whose source is not below `n` is an
entry edge, an edge whose destination is not below `n` is the exit edge. -/
theorem C18_reads_in_bounds (assertsFatal : Bool) (layout : RenderAttachmentLayout)
    (h2 : 2 ≤ layout.m_subpassCount)
    (hcap : layout.m_subpassCount ≤ layout.m_subpassLayouts.length)
    (h32 : layout.m_subpassCount < 2 ^ 32) :
    (∀ (before : List VkSubpassDependency) (subpassIndex : Nat),
        subpassIndex < layout.m_subpassCount →
        ∃ after,
          AddSubpassDependencies before subpassIndex
              (layout.m_subpassLayouts.take layout.m_subpassCount) layout.m_subpassCount
            = .ok after
          ∧ AddSubpassDependencies before subpassIndex layout.m_subpassLayouts
              layout.m_subpassCount = .ok after)
    ∧ (∀ subpassIndex, subpassIndex < layout.m_subpassCount →
        (subpassIndex + 1) % 2 ^ 32 = subpassIndex + 1)
    ∧ layout.m_subpassCount ≤ VK_SUBPASS_EXTERNAL
    ∧ ∃ deps,
        SubpassDependenciesManager.BuildSubpassDependencies assertsFatal
            { layout with
              m_subpassLayouts := layout.m_subpassLayouts.take layout.m_subpassCount }
          = .ok deps
        ∧ SubpassDependenciesManager.BuildSubpassDependencies assertsFatal layout = .ok deps
        ∧ ∀ d ∈ deps.m_subpassDependencies,
            (d.srcSubpass < layout.m_subpassCount
              ∨ (d.srcSubpass = VK_SUBPASS_EXTERNAL
                  ∧ d ∈ entryEdgesSpec (layout.m_subpassLayouts.get ⟨0, by omega⟩)))
            ∧ (d.dstSubpass < layout.m_subpassCount
              ∨ (d.dstSubpass = VK_SUBPASS_EXTERNAL
                  ∧ d = exitEdgeSpec (layout.m_subpassCount - 1))) := by
  have hext : VK_SUBPASS_EXTERNAL = 4294967295 := rfl
  have h0 : 0 < layout.m_subpassLayouts.length := by omega
  have hget0 : layout.m_subpassLayouts.getD 0 noUsage
      = layout.m_subpassLayouts.get ⟨0, h0⟩ := by
    rw [List.getD_eq_getElem _ _ h0, List.get_eq_getElem]
  have hlen : layout.m_subpassCount
      ≤ (layout.m_subpassLayouts.take layout.m_subpassCount).length := by
    rw [List.length_take]
    omega
  have htake : (layout.m_subpassLayouts.take layout.m_subpassCount).take layout.m_subpassCount
      = layout.m_subpassLayouts.take layout.m_subpassCount := by
    rw [List.take_take, Nat.min_self]
  have hget : ∀ i, i < layout.m_subpassCount →
      (layout.m_subpassLayouts.take layout.m_subpassCount).getD i noUsage
        = layout.m_subpassLayouts.getD i noUsage :=
    fun i hi => getD_eq_of_take_eq _ _ _ i htake hi
  refine ⟨?_, ?_, ?_, ?_⟩
  · intro before i hi
    refine ⟨_, AddSubpassDependencies_eq before i _ _ h2 hi hlen h32, ?_⟩
    rw [AddSubpassDependencies_eq before i _ _ h2 hi hcap h32]
    unfold edgesAt
    rw [hget 0 (by omega), hget i hi]
    by_cases hnext : i + 1 < layout.m_subpassCount
    · rw [hget (i + 1) hnext]
    · simp only [hnext, if_false]
  · intro i hi
    exact Nat.mod_eq_of_lt (by omega)
  · omega
  · refine ⟨_, ?_, BuildSubpassDependencies_eq assertsFatal layout h2 hcap h32, ?_⟩
    · rw [BuildSubpassDependencies_congr_take assertsFatal assertsFatal
        { layout with
          m_subpassLayouts := layout.m_subpassLayouts.take layout.m_subpassCount }
        layout h2 hlen hcap h32 rfl htake]
      exact BuildSubpassDependencies_eq assertsFatal layout h2 hcap h32
    · intro d hd
      simp only [hget0] at hd
      rcases List.mem_append.mp hd with hd | hd
      · rcases List.mem_append.mp hd with hd | hd
        · obtain ⟨hs, hdst, _⟩ := mem_entryEdgesSpec _ d hd
          exact ⟨Or.inr ⟨hs, hd⟩, Or.inl (by omega)⟩
        · obtain ⟨h1, h3, _⟩ := mem_interEdges _ _ d hd
          exact ⟨Or.inl (by omega), Or.inl (by omega)⟩
      · rw [List.mem_singleton.mp hd]
        exact ⟨Or.inl (by simp only [exitEdgeSpec]; omega), Or.inr ⟨rfl, rfl⟩⟩

/-- C18, witness: three subpasses in an array of four. -/
theorem C18_reads_in_bounds_witness :
    ∃ deps,
      SubpassDependenciesManager.BuildSubpassDependencies true
          { layoutThree with
            m_subpassLayouts := layoutThree.m_subpassLayouts.take layoutThree.m_subpassCount }
        = .ok deps
      ∧ SubpassDependenciesManager.BuildSubpassDependencies true layoutThree = .ok deps := by
  obtain ⟨deps, hcut, hfull, _⟩ :=
    (C18_reads_in_bounds true layoutThree (by decide) (by decide) (by decide)).2.2.2
  exact ⟨deps, hcut, hfull⟩

/-- C19: `SetSubpassDependencies` changes the listed keys only: for a scope id that is
not in the list, `GetSubpassDependencies` returns after the call what it
returned before, for every handle; with an empty list the manager is unchanged;
and `GetSubpassDependencies`, a `const` member function, leaves the manager as
it is, so the lookups of a sequence of calls do not change the manager after
the sequence. -/
theorem C19_register_frame (m : SubpassDependenciesManager) (scopeIds : List ScopeId)
    (handle : shared_ptr SubpassDependencies) :
    (∀ c : ScopeId, c ∉ scopeIds →
        (m.SetSubpassDependencies scopeIds handle).GetSubpassDependencies c
          = m.GetSubpassDependencies c)
    ∧ (∀ c : ScopeId, c ∉ scopeIds →
        unordered_map.find
            (m.SetSubpassDependencies scopeIds handle).m_subpassDependenciesTable c
          = unordered_map.find m.m_subpassDependenciesTable c)
    ∧ m.SetSubpassDependencies [] handle = m
    ∧ (∀ scopeId : ScopeId,
        (ManagerCall.run m (.GetSubpassDependencies scopeId)).1 = m
        ∧ (ManagerCall.run m (.GetSubpassDependencies scopeId)).2
            = m.GetSubpassDependencies scopeId)
    ∧ (∀ calls : List ManagerCall,
        runCalls m calls = runCalls m (calls.filter ManagerCall.isSet)) := by
  refine ⟨?_, ?_, rfl, fun _ => ⟨rfl, rfl⟩, fun calls => runCalls_filter_isSet calls m⟩
  · intro c hc
    rw [GetSubpassDependencies_SetSubpassDependencies, if_neg hc]
  · intro c hc
    rw [find_SetSubpassDependencies, if_neg hc]

/-- C19, witness: the id C keeps its set when A and B are registered anew. -/
theorem C19_register_frame_witness :
    ((SubpassDependenciesManager.initial.SetSubpassDependencies [scopeC]
        (some setOne)).SetSubpassDependencies [scopeA, scopeB]
        (some setTwo)).GetSubpassDependencies scopeC = some setOne :=
  ((C19_register_frame
      (SubpassDependenciesManager.initial.SetSubpassDependencies [scopeC] (some setOne))
      [scopeA, scopeB] (some setTwo)).1 scopeC (by decide)).trans (by decide)

/-- C20: the output of `BuildSubpassDependencies` depends on few bits of the layout: two
layouts of the same subpass count `n`, `2 <= n` within the capacity of both
arrays, give the same edge sequence when they agree on the validity of the
depth/stencil descriptor of subpass 0, on whether each subpass below `n` has a
render target, and, for each subpass from 1 to `n - 1` that has a render
target, on whether it has an input attachment. -/
theorem C20_depends_on_few_bits (assertsFatal : Bool)
    (layout1 layout2 : RenderAttachmentLayout)
    (h2 : 2 ≤ layout1.m_subpassCount)
    (hcap1 : layout1.m_subpassCount ≤ layout1.m_subpassLayouts.length)
    (hcap2 : layout1.m_subpassCount ≤ layout2.m_subpassLayouts.length)
    (h32 : layout1.m_subpassCount < 2 ^ 32)
    (hcount : layout2.m_subpassCount = layout1.m_subpassCount)
    (hds : (layout1.m_subpassLayouts.get ⟨0, by omega⟩).m_depthStencilDescriptor.IsValid
      = (layout2.m_subpassLayouts.get ⟨0, by omega⟩).m_depthStencilDescriptor.IsValid)
    (hrt : ∀ i (hi : i < layout1.m_subpassCount),
      (0 < (layout1.m_subpassLayouts.get ⟨i, by omega⟩).m_rendertargetCount
        ↔ 0 < (layout2.m_subpassLayouts.get ⟨i, by omega⟩).m_rendertargetCount))
    (hin : ∀ i (hi : i < layout1.m_subpassCount), 1 ≤ i →
      0 < (layout1.m_subpassLayouts.get ⟨i, by omega⟩).m_rendertargetCount →
      (0 < (layout1.m_subpassLayouts.get ⟨i, by omega⟩).m_subpassInputCount
        ↔ 0 < (layout2.m_subpassLayouts.get ⟨i, by omega⟩).m_subpassInputCount)) :
    ∃ deps1 deps2,
      SubpassDependenciesManager.BuildSubpassDependencies assertsFatal layout1 = .ok deps1
      ∧ SubpassDependenciesManager.BuildSubpassDependencies assertsFatal layout2 = .ok deps2
      ∧ deps1.m_subpassDependencies = deps2.m_subpassDependencies := by
  have hg1 : ∀ i (hi : i < layout1.m_subpassCount),
      layout1.m_subpassLayouts.getD i noUsage
        = layout1.m_subpassLayouts.get ⟨i, by omega⟩ := by
    intro i hi
    rw [List.getD_eq_getElem _ _ (by omega), List.get_eq_getElem]
  have hg2 : ∀ i (hi : i < layout1.m_subpassCount),
      layout2.m_subpassLayouts.getD i noUsage
        = layout2.m_subpassLayouts.get ⟨i, by omega⟩ := by
    intro i hi
    rw [List.getD_eq_getElem _ _ (by omega), List.get_eq_getElem]
  refine ⟨_, _, BuildSubpassDependencies_eq assertsFatal layout1 h2 hcap1 h32,
    BuildSubpassDependencies_eq assertsFatal layout2 (by omega) (by omega) (by omega), ?_⟩
  simp only [hcount]
  rw [entryEdgesSpec_congr (layout1.m_subpassLayouts.getD 0 noUsage)
      (layout2.m_subpassLayouts.getD 0 noUsage)
      (by rw [hg1 0 (by omega), hg2 0 (by omega)]; exact hds)
      (by rw [hg1 0 (by omega), hg2 0 (by omega)]; exact hrt 0 (by omega)),
    interEdges_congr layout1.m_subpassLayouts layout2.m_subpassLayouts
      (layout1.m_subpassCount - 1)
      (fun i hi => by
        have hi2 : i < layout1.m_subpassCount := by omega
        rw [hg1 i hi2, hg2 i hi2]
        exact hrt i hi2)
      (fun i h1 hi => by
        have hi2 : i < layout1.m_subpassCount := by omega
        rw [hg1 i hi2, hg2 i hi2]
        exact hin i hi2 h1)]

/-- C20, witness: two layouts of three subpasses that differ in the magnitudes of the
counts, in the depth/stencil descriptors of the subpasses 1 and 2, in the input
attachment count of subpass 0 and in the entries of the array from index 3. -/
theorem C20_depends_on_few_bits_witness :
    ∃ deps1 deps2,
      SubpassDependenciesManager.BuildSubpassDependencies true layoutThree = .ok deps1
      ∧ SubpassDependenciesManager.BuildSubpassDependencies true layoutThreeVariant = .ok deps2
      ∧ deps1.m_subpassDependencies = deps2.m_subpassDependencies
      ∧ layoutThree ≠ layoutThreeVariant :=
  (C20_depends_on_few_bits true layoutThree layoutThreeVariant (by decide) (by decide)
    (by decide) (by decide) (by decide) (by decide) (by decide) (by decide)).imp
    (fun _ h => h.imp (fun _ h3 => ⟨h3.1, h3.2.1, h3.2.2, by decide⟩))

end Vulkan
end AZ
